import Mathlib

/-!
Shallow embedding of the ziw runtime (src/ziw.js): an HTML-first framework
whose core is an event-delegation dispatch engine, a per-element instance
state store, a script-load deduplicator with event buffering, and a binding
engine (text / list-repeat / conditional bindings).

The embedding is split in two layers, mirroring the separable concerns of
the source file:

* a load/dispatch layer (`loadComponent`, `replayEvents`, `globalDispatch`)
  in which the DOM enters only through the ancestor chain of the event
  target, modelled as an explicit list of elements; and
* a DOM/instance layer (`initInstance`, `makeSetStateRun`, `destroy`,
  `register` and the binding functions) over a full document tree model.

JS values are modelled by `JsVal`: primitives compare by value, arrays and
objects carry an allocation tag (`ref`) so that the strict-equality
operator of the source (reference equality on objects) is expressible.
Host primitives that the spec places outside the core (parseFloat,
ToString) are modelled by simple executable functions.

Functions return, next to the successor state, a trace of observable steps
(handler invocations, lifecycle callbacks, render passes, script
injections); the theorems about ordering and "exactly once" behaviour are
stated over these traces.
-/

namespace Ziw

/-! ## Association-list helpers (JS objects and Maps keep insertion order) -/

/-- Lookup in an insertion-ordered association list (JS `Map.get` /
property read). -/
def alookup {κ α : Type} [DecidableEq κ] : List (κ × α) → κ → Option α
  | [], _ => none
  | (k, v) :: rest, key => if k = key then some v else alookup rest key

/-- Write to an insertion-ordered association list (JS `Map.set` / property
assignment): an existing key keeps its position, a new key is appended. -/
def aset {κ α : Type} [DecidableEq κ] : List (κ × α) → κ → α → List (κ × α)
  | [], key, v => [(key, v)]
  | (k, w) :: rest, key, v =>
    if k = key then (k, v) :: rest else (k, w) :: aset rest key v

/-- Remove a key (JS `Map.delete` / `delete`). -/
def aerase {κ α : Type} [DecidableEq κ] : List (κ × α) → κ → List (κ × α)
  | [], _ => []
  | (k, w) :: rest, key =>
    if k = key then rest else (k, w) :: aerase rest key

/-- The keys, in insertion order (JS `Object.keys`). -/
def akeys {κ α : Type} : List (κ × α) → List κ :=
  fun l => l.map Prod.fst

/-! ## JS values

Primitives are structural; arrays and plain objects carry an allocation
tag `ref` standing for the object reference, so that strict equality can
distinguish two structurally equal allocations.  The mutual shape keeps
every recursive definition structural (and hence kernel-reducible). -/

mutual
inductive JsVal where
  | undefV
  | null
  | bool (b : Bool)
  | num (n : Int)
  | nan
  | str (s : String)
  | arr (ref : Nat) (elems : JsList)
  | obj (ref : Nat) (fields : JsFields)
deriving DecidableEq
inductive JsList where
  | nil
  | cons (hd : JsVal) (tl : JsList)
deriving DecidableEq
inductive JsFields where
  | nil
  | cons (name : String) (hd : JsVal) (tl : JsFields)
deriving DecidableEq
end

/-- JS strict equality `===` (hence `!==` is its negation): no coercion
across types, `NaN !== NaN`, arrays and objects compare by reference. -/
def jsEq : JsVal → JsVal → Bool
  | .undefV, .undefV => true
  | .null, .null => true
  | .bool a, .bool b => a == b
  | .num a, .num b => a == b
  | .str a, .str b => a == b
  | .arr r _, .arr r2 _ => r == r2
  | .obj r _, .obj r2 _ => r == r2
  | _, _ => false

/-- JS truthiness: `undefined`, `null`, `false`, `0`, `NaN` and `""` are
falsy, everything else (including every array and object) is truthy. -/
def truthy : JsVal → Bool
  | .undefV => false
  | .null => false
  | .bool b => b
  | .num n => n != 0
  | .nan => false
  | .str s => s != ""
  | .arr _ _ => true
  | .obj _ _ => true

/-- JS `typeof`. -/
def typeofVal : JsVal → String
  | .undefV => "undefined"
  | .null => "object"
  | .bool _ => "boolean"
  | .num _ => "number"
  | .nan => "number"
  | .str _ => "string"
  | .arr _ _ => "object"
  | .obj _ _ => "object"

/-- `Array.isArray`. -/
def isArray : JsVal → Bool
  | .arr _ _ => true
  | _ => false

/-- Property read defaulting to `undefined` (JS `state[key]`). -/
def lookupD (l : List (String × JsVal)) (k : String) : JsVal :=
  (alookup l k).getD .undefV

/-- Modelled host primitive `parseFloat` (a Node-Tree-Adapter-side string
accessor feeds it): longest leading integer prefix after optional sign;
`NaN` when no digit is found.  The engine only relies on number-typed
hydration producing a number, never on fractional parsing. -/
def jsParseFloat (s : String) : JsVal :=
  let chars := s.toList.dropWhile (fun c => c == ' ')
  let (neg, rest) :=
    match chars with
    | '-' :: r => (true, r)
    | '+' :: r => (false, r)
    | r => (false, r)
  let digits := rest.takeWhile Char.isDigit
  if digits.isEmpty then .nan
  else
    let v : Int := digits.foldl (fun acc c => acc * 10 + (c.toNat - 48)) 0
    .num (if neg then -v else v)

mutual
/-- Modelled host primitive `String(v)` / `textContent` assignment
stringification. -/
def jsToString : JsVal → String
  | .undefV => "undefined"
  | .null => "null"
  | .bool b => if b then "true" else "false"
  | .num n => toString n
  | .nan => "NaN"
  | .str s => s
  | .arr _ xs => jsToStringList xs
  | .obj _ _ => "[object Object]"
/-- `Array.prototype.toString`: elements joined with commas, `null` and
`undefined` elements printing as the empty string. -/
def jsToStringList : JsList → String
  | .nil => ""
  | .cons .undefV .nil => ""
  | .cons .null .nil => ""
  | .cons x .nil => jsToString x
  | .cons .undefV xs => "," ++ jsToStringList xs
  | .cons .null xs => "," ++ jsToStringList xs
  | .cons x xs => jsToString x ++ "," ++ jsToStringList xs
end

/-! ## deepClone (src/ziw.js lines 69-82)

`deepClone(obj)`: primitives (and `null`) pass through unchanged; arrays
and plain objects are rebuilt recursively.  The rebuilt containers are
fresh allocations, modelled by drawing their `ref` tags from a supply
counter that only ever grows. -/

mutual
/-- `deepClone` on one value, threading the allocation supply. -/
def deepClone : JsVal → Nat → JsVal × Nat
  | .arr _ xs, sup =>
    let (xs', sup') := deepCloneList xs sup
    (.arr sup' xs', sup' + 1)
  | .obj _ fs, sup =>
    let (fs', sup') := deepCloneFields fs sup
    (.obj sup' fs', sup' + 1)
  | v, sup => (v, sup)
/-- `deepClone` over the elements of an array. -/
def deepCloneList : JsList → Nat → JsList × Nat
  | .nil, sup => (.nil, sup)
  | .cons x xs, sup =>
    let (x', sup') := deepClone x sup
    let (xs', sup'') := deepCloneList xs sup'
    (.cons x' xs', sup'')
/-- `deepClone` over the fields of an object (`Object.keys` order). -/
def deepCloneFields : JsFields → Nat → JsFields × Nat
  | .nil, sup => (.nil, sup)
  | .cons k x fs, sup =>
    let (x', sup') := deepClone x sup
    let (fs', sup'') := deepCloneFields fs sup'
    (.cons k x' fs', sup'')
end

/-- The declared initial state of a component is an object literal; the
engine stores its fields.  `deepClone` of that object clones every field
value. -/
def deepCloneState : List (String × JsVal) → Nat → List (String × JsVal) × Nat
  | [], sup => ([], sup)
  | (k, v) :: rest, sup =>
    let (v', sup') := deepClone v sup
    let (rest', sup'') := deepCloneState rest sup'
    ((k, v') :: rest', sup'')

mutual
/-- Erase allocation tags, leaving the pure structure of a value. -/
def stripRefs : JsVal → JsVal
  | .arr _ xs => .arr 0 (stripRefsList xs)
  | .obj _ fs => .obj 0 (stripRefsFields fs)
  | v => v
/-- Erase allocation tags in array elements. -/
def stripRefsList : JsList → JsList
  | .nil => .nil
  | .cons x xs => .cons (stripRefs x) (stripRefsList xs)
/-- Erase allocation tags in object fields. -/
def stripRefsFields : JsFields → JsFields
  | .nil => .nil
  | .cons k x fs => .cons k (stripRefs x) (stripRefsFields fs)
end

mutual
/-- Every allocation tag of the value is at least `n`. -/
def refsGe (n : Nat) : JsVal → Bool
  | .arr r xs => decide (n ≤ r) && refsGeList n xs
  | .obj r fs => decide (n ≤ r) && refsGeFields n fs
  | _ => true
/-- Allocation-tag bound for array elements. -/
def refsGeList (n : Nat) : JsList → Bool
  | .nil => true
  | .cons x xs => refsGe n x && refsGeList n xs
/-- Allocation-tag bound for object fields. -/
def refsGeFields (n : Nat) : JsFields → Bool
  | .nil => true
  | .cons _ x fs => refsGe n x && refsGeFields n fs
end

/-- Object fields built from an ordered field list. -/
def fieldsOfList : List (String × JsVal) → JsFields
  | [] => .nil
  | (k, v) :: rest => .cons k v (fieldsOfList rest)

/-- Field lookup on an object value (JS property read, first occurrence
wins; the engine only builds duplicate-free field sets). -/
def fieldsLookup : JsFields → String → Option JsVal
  | .nil, _ => none
  | .cons k v rest, key => if k = key then some v else fieldsLookup rest key

/-! ## Document tree model (the Node-Tree Adapter of spec section 2)

Element and comment nodes carry a numeric identity so that reference
comparisons (`!==`), per-element stores (`WeakMap` keyed by element) and
id-directed mutation are expressible.  A `template` element's children
stand for its inert content fragment: queries and text reads do not
descend into them, exactly as `querySelectorAll` and `textContent` do not
see a template's content in a real document tree. -/

mutual
inductive DNode where
  | elem (id : Nat) (tag : String) (attrs : List (String × String)) (children : DForest)
  | textN (s : String)
  | commentN (id : Nat) (s : String)
deriving DecidableEq
inductive DForest where
  | nil
  | cons (hd : DNode) (tl : DForest)
deriving DecidableEq
end

/-- Node identity (text nodes are never compared by identity here). -/
def nodeIdOf : DNode → Option Nat
  | .elem i _ _ _ => some i
  | .textN _ => none
  | .commentN i _ => some i

/-- Tag name. -/
def tagOf : DNode → String
  | .elem _ t _ _ => t
  | .textN _ => "#text"
  | .commentN _ _ => "#comment"

/-- `getAttribute` (null for non-elements and missing attributes). -/
def getAttrN (n : DNode) (name : String) : Option String :=
  match n with
  | .elem _ _ attrs _ => alookup attrs name
  | _ => none

/-- Attribute read under JS truthiness (the empty string is falsy): models
source patterns of the form `el.getAttribute(a) &&`. -/
def getAttrNT (n : DNode) (name : String) : Option String :=
  match getAttrN n name with
  | some v => if v = "" then none else some v
  | none => none

/-- Forest concatenation. -/
def fappend : DForest → DForest → DForest
  | .nil, ys => ys
  | .cons x xs, ys => .cons x (fappend xs ys)

/-- The attribute selectors the engine uses: `[a]` and `[a="v"]`. -/
inductive Selector where
  | attrPresent (name : String)
  | attrEq (name : String) (value : String)
deriving DecidableEq

/-- Selector match on one node. -/
def selMatch : Selector → DNode → Bool
  | .attrPresent n, nd => (getAttrN nd n).isSome
  | .attrEq n v, nd => getAttrN nd n == some v

mutual
/-- Collect matching elements in document (preorder) order; template
content is not traversed. -/
def collectMatchesN (sel : Selector) : DNode → List DNode
  | .elem i t a cs =>
    (if selMatch sel (.elem i t a cs) then [DNode.elem i t a cs] else []) ++
      (if t == "template" then [] else collectMatchesF sel cs)
  | .textN _ => []
  | .commentN _ _ => []
/-- Collect matching elements of a forest. -/
def collectMatchesF (sel : Selector) : DForest → List DNode
  | .nil => []
  | .cons c cs => collectMatchesN sel c ++ collectMatchesF sel cs
end

/-- `querySelectorAll`: matching descendants of the node, in document
order (the node itself is not a candidate). -/
def querySelectorAll (n : DNode) (sel : Selector) : List DNode :=
  match n with
  | .elem _ t _ cs => if t == "template" then [] else collectMatchesF sel cs
  | _ => []

/-- `querySelector`: first matching descendant. -/
def querySelector (n : DNode) (sel : Selector) : Option DNode :=
  (querySelectorAll n sel).head?

mutual
/-- `textContent` read: concatenated text of all non-comment descendants;
a template contributes nothing (its content is a separate fragment). -/
def textContentN : DNode → String
  | .elem _ t _ cs => if t == "template" then "" else textContentF cs
  | .textN s => s
  | .commentN _ _ => ""
/-- `textContent` of a forest. -/
def textContentF : DForest → String
  | .nil => ""
  | .cons c cs => textContentN c ++ textContentF cs
end

/-- Element children of a forest (the `children` HTMLCollection). -/
def elemChildrenF : DForest → List DNode
  | .nil => []
  | .cons (.elem i t a k) cs => DNode.elem i t a k :: elemChildrenF cs
  | .cons _ cs => elemChildrenF cs

/-- `el.children` as a list. -/
def elemChildren : DNode → List DNode
  | .elem _ _ _ cs => elemChildrenF cs
  | _ => []

mutual
/-- `cloneNode(true)`: same tags, attributes and text, fresh identities
drawn from the supply. -/
def cloneNodeN : DNode → Nat → DNode × Nat
  | .elem _ t a cs, sup =>
    let i := sup
    let (cs', sup') := cloneNodeF cs (sup + 1)
    (.elem i t a cs', sup')
  | .textN s, sup => (.textN s, sup)
  | .commentN _ s, sup => (.commentN sup s, sup + 1)
/-- Deep clone of a forest. -/
def cloneNodeF : DForest → Nat → DForest × Nat
  | .nil, sup => (.nil, sup)
  | .cons c cs, sup =>
    let (c', sup') := cloneNodeN c sup
    let (cs', sup'') := cloneNodeF cs sup'
    (.cons c' cs', sup'')
end

mutual
/-- Find the node carrying an identity anywhere in a tree (identities are
unique across a document and all held fragments). -/
def findByIdN (i : Nat) : DNode → Option DNode
  | .elem j t a cs => if j == i then some (.elem j t a cs) else findByIdF i cs
  | .textN _ => none
  | .commentN j s => if j == i then some (.commentN j s) else none
/-- Find by identity in a forest. -/
def findByIdF (i : Nat) : DForest → Option DNode
  | .nil => none
  | .cons c cs =>
    match findByIdN i c with
    | some r => some r
    | none => findByIdF i cs
end

mutual
/-- The `parentElement` chain of the node with identity `i`, nearest
ancestor first; `none` when the node is not in this (rendered) tree.
Template content is off the rendered tree, so it is not walked. -/
def ancN (i : Nat) : DNode → Option (List DNode)
  | .elem j t a cs =>
    if t == "template" then none
    else (ancF i cs).map (fun l => l ++ [DNode.elem j t a cs])
  | .textN _ => none
  | .commentN _ _ => none
/-- Ancestor chain search within a forest. -/
def ancF (i : Nat) : DForest → Option (List DNode)
  | .nil => none
  | .cons c cs =>
    if nodeIdOf c == some i then some []
    else
      match ancN i c with
      | some l => some l
      | none => ancF i cs
end

/-- The upward loop of `belongsToComponent` (src/ziw.js lines 88-95):
walk ancestors until the component element (true) or a closer
`jscomponent` ancestor (false); running out of ancestors is false. -/
def belongsWalk (compElId : Nat) : List DNode → Bool
  | [] => false
  | a :: rest =>
    if nodeIdOf a == some compElId then true
    else if (getAttrN a "jscomponent").isSome then false
    else belongsWalk compElId rest

/-- `belongsToComponent(el, compEl)` (src/ziw.js lines 88-95). -/
def belongsToComponent (root : DNode) (elId compElId : Nat) : Bool :=
  match ancN elId root with
  | some chain => belongsWalk compElId chain
  | none => false

/-- The self-then-ancestors loop of `el.closest('[a]')`. -/
def closestWalk (name : String) : List DNode → Option Nat
  | [] => none
  | a :: rest =>
    match getAttrN a name with
    | some _ => nodeIdOf a
    | none => closestWalk name rest

/-- `el.closest('[name]')`, as the identity of the nearest self-or-ancestor
element carrying the attribute. -/
def closestAttr (root : DNode) (elId : Nat) (name : String) : Option Nat :=
  match findByIdN elId root, ancN elId root with
  | some el, some chain => closestWalk name (el :: chain)
  | _, _ => none

mutual
/-- `textContent` assignment on the node with identity `i`: its children
are replaced by a single text node. -/
def setTextByIdN (i : Nat) (s : String) : DNode → DNode
  | .elem j t a cs =>
    if j == i then .elem j t a (.cons (.textN s) .nil)
    else .elem j t a (setTextByIdF i s cs)
  | n => n
/-- `textContent` assignment within a forest. -/
def setTextByIdF (i : Nat) (s : String) : DForest → DForest
  | .nil => .nil
  | .cons c cs => .cons (setTextByIdN i s c) (setTextByIdF i s cs)
end

mutual
/-- Rewrite the children of the element with identity `i`. -/
def mapChildrenByIdN (i : Nat) (f : DForest → DForest) : DNode → DNode
  | .elem j t a cs =>
    if j == i then .elem j t a (f cs) else .elem j t a (mapChildrenByIdF i f cs)
  | n => n
/-- Children rewrite within a forest. -/
def mapChildrenByIdF (i : Nat) (f : DForest → DForest) : DForest → DForest
  | .nil => .nil
  | .cons c cs => .cons (mapChildrenByIdN i f c) (mapChildrenByIdF i f cs)
end

/-- `el.innerHTML = ''` on the element with identity `i`. -/
def clearChildrenById (root : DNode) (i : Nat) : DNode :=
  mapChildrenByIdN i (fun _ => .nil) root

/-- `el.appendChild(child)` on the element with identity `i`. -/
def appendChildById (root : DNode) (i : Nat) (child : DNode) : DNode :=
  mapChildrenByIdN i (fun cs => fappend cs (.cons child .nil)) root

mutual
/-- `parent.insertBefore(nd, ref)`: insert `nd` as the previous sibling of
the node with identity `refId`. -/
def insertBeforeIdN (refId : Nat) (nd : DNode) : DNode → DNode
  | .elem j t a cs => .elem j t a (insertBeforeIdF refId nd cs)
  | n => n
/-- Insertion within a forest. -/
def insertBeforeIdF (refId : Nat) (nd : DNode) : DForest → DForest
  | .nil => .nil
  | .cons c cs =>
    if nodeIdOf c == some refId then .cons nd (.cons c cs)
    else .cons (insertBeforeIdN refId nd c) (insertBeforeIdF refId nd cs)
end

mutual
/-- `node.parentNode.removeChild(node)`: remove the node with identity `i`,
returning the new tree and the removed (live) subtree. -/
def removeByIdN (i : Nat) : DNode → DNode × Option DNode
  | .elem j t a cs =>
    let (cs', r) := removeByIdF i cs
    (.elem j t a cs', r)
  | n => (n, none)
/-- Removal within a forest. -/
def removeByIdF (i : Nat) : DForest → DForest × Option DNode
  | .nil => (.nil, none)
  | .cons c cs =>
    if nodeIdOf c == some i then (cs, some c)
    else
      let (c', r) := removeByIdN i c
      match r with
      | some x => (.cons c' cs, some x)
      | none =>
        let (cs', r') := removeByIdF i cs
        (.cons c' cs', r')
end

/-! ## Component definitions and per-instance state

A `ComponentDef` mirrors the registered definition object: the optional
declared initial state (the fields of the `state` object literal),
presence flags for the three optional lifecycle callbacks (their bodies
are host code outside the core), and the `actions` table mapping an action
name and an event type to an opaque handler identifier. -/

structure ComponentDef where
  state : Option (List (String × JsVal))
  hasInit : Bool
  hasUpdate : Bool
  hasDestroy : Bool
  actions : Option (List (String × List (String × Nat)))
deriving DecidableEq

/-- `def.actions && def.actions[actionName]` (src/ziw.js line 561). -/
def actionTable (d : ComponentDef) (actionName : String) : Option (List (String × Nat)) :=
  match d.actions with
  | none => none
  | some acts => alookup acts actionName

/-- `def.actions[actionName][eventType]` guarded as in the source: the
handler found for an action name and event type, if any. -/
def handlerFor (d : ComponentDef) (actionName eventType : String) : Option Nat :=
  match actionTable d actionName with
  | none => none
  | some tbl => alookup tbl eventType

/-- One entry of `instanceStore`: the live state object and the snapshot
taken before the most recent patch (`prev` starts as `null`). -/
structure Instance where
  state : List (String × JsVal)
  prev : Option (List (String × JsVal))
deriving DecidableEq

/-- The merge loop of `makeSetState` (src/ziw.js lines 362-370): shallow
merge of the patch into the current state, key by key in patch order,
recording the keys whose incoming value is `!==` the prior value. -/
def mergePatch : List (String × JsVal) → List (String × JsVal) →
    List (String × JsVal) × List String
  | current, [] => (current, [])
  | current, (k, v) :: rest =>
    ((mergePatch (aset current k v) rest).1,
      (if !(jsEq (lookupD current k) v) then [k] else []) ++
        (mergePatch (aset current k v) rest).2)

/-! ## Binding engine (spec section 4.4)

Each function takes the document tree and the identity of the component
element, exactly the data the source reads through the Node-Tree Adapter.
NodeLists returned by `querySelectorAll` are static snapshots, so each
loop first collects its elements and then walks them while mutations are
threaded through the tree. -/

/-- The inner element loop of `hydrateBindings` (src/ziw.js lines
108-122): the first element that belongs to the component and is not in a
foreign `jsfor` container wins, and the state value is coerced to the type
of the declared value. -/
def hydrateKeyLoop (doc : DNode) (compElId : Nat) (key : String)
    (st : List (String × JsVal)) : List DNode → List (String × JsVal)
  | [] => st
  | el :: rest =>
    match nodeIdOf el with
    | none => hydrateKeyLoop doc compElId key st rest
    | some elId =>
      if !(belongsToComponent doc elId compElId) then
        hydrateKeyLoop doc compElId key st rest
      else if (match closestAttr doc elId "jsfor" with
               | some c => c != compElId
               | none => false) then
        hydrateKeyLoop doc compElId key st rest
      else
        let text := textContentN el
        let ty := typeofVal (lookupD st key)
        let v :=
          if ty == "number" then jsParseFloat text
          else if ty == "boolean" then JsVal.bool (text == "true")
          else JsVal.str text
        aset st key v

/-- The key loop of `hydrateBindings` (src/ziw.js lines 102-124): array
keys are skipped (they are hydrated by `hydrateForBindings`). -/
def hydrateBindingsLoop (doc : DNode) (compElId : Nat) :
    List String → List (String × JsVal) → List (String × JsVal)
  | [], st => st
  | key :: rest, st =>
    let st' :=
      if isArray (lookupD st key) then st
      else
        match findByIdN compElId doc with
        | some compEl =>
          hydrateKeyLoop doc compElId key st
            (querySelectorAll compEl (.attrEq "jsdata" key))
        | none => st
    hydrateBindingsLoop doc compElId rest st'

/-- `hydrateBindings(compEl, state)` (src/ziw.js lines 102-124). -/
def hydrateBindings (doc : DNode) (compElId : Nat)
    (st : List (String × JsVal)) : List (String × JsVal) :=
  hydrateBindingsLoop doc compElId (akeys st) st

/-- The element loop of `updateBindings` (src/ziw.js lines 137-144);
ownership checks run against the live tree, as in the source. -/
def updateElsLoop (compElId : Nat) (value : JsVal) :
    List DNode → DNode → DNode
  | [], doc => doc
  | el :: rest, doc =>
    match nodeIdOf el with
    | none => updateElsLoop compElId value rest doc
    | some elId =>
      if !(belongsToComponent doc elId compElId) then
        updateElsLoop compElId value rest doc
      else if (match closestAttr doc elId "jsfor" with
               | some c => c != compElId
               | none => false) then
        updateElsLoop compElId value rest doc
      else
        updateElsLoop compElId value rest (setTextByIdN elId (jsToString value) doc)

/-- The key loop of `updateBindings`. -/
def updateBindingsLoop (compElId : Nat) (st : List (String × JsVal)) :
    List String → DNode → DNode
  | [], doc => doc
  | key :: rest, doc =>
    let doc' :=
      match findByIdN compElId doc with
      | some compEl =>
        updateElsLoop compElId (lookupD st key)
          (querySelectorAll compEl (.attrEq "jsdata" key)) doc
      | none => doc
    updateBindingsLoop compElId st rest doc'

/-- `updateBindings(compEl, state, changedKeys)` (src/ziw.js lines
132-145): text render pass, scoped to `changedKeys` when given, else to
all state keys. -/
def updateBindings (doc : DNode) (compElId : Nat) (st : List (String × JsVal))
    (changedKeys : Option (List String)) : DNode :=
  updateBindingsLoop compElId st (changedKeys.getD (akeys st)) doc

/-- The container loop of `initForBindings` (src/ziw.js lines 151-161):
snapshot the first element child of every owned `jsfor` container as the
repeat template (an unconditional `forTemplates.set`). -/
def initForLoop (doc : DNode) (compElId : Nat) :
    List DNode → List (Nat × DNode) → Nat → List (Nat × DNode) × Nat
  | [], templates, sup => (templates, sup)
  | container :: rest, templates, sup =>
    match nodeIdOf container with
    | none => initForLoop doc compElId rest templates sup
    | some cid =>
      if !(belongsToComponent doc cid compElId) then
        initForLoop doc compElId rest templates sup
      else
        match (elemChildren container).head? with
        | some firstChild =>
          let (tpl, sup') := cloneNodeN firstChild sup
          initForLoop doc compElId rest (aset templates cid tpl) sup'
        | none => initForLoop doc compElId rest templates sup

/-- `initForBindings(compEl)` (src/ziw.js lines 151-161). -/
def initForBindings (doc : DNode) (compElId : Nat)
    (templates : List (Nat × DNode)) (sup : Nat) : List (Nat × DNode) × Nat :=
  match findByIdN compElId doc with
  | some compEl =>
    initForLoop doc compElId (querySelectorAll compEl (.attrPresent "jsfor"))
      templates sup
  | none => (templates, sup)

/-- Object-mode item assembly of `hydrateForBindings` (src/ziw.js lines
187-198): the child's own `jsdata` tag, then every descendant `jsdata`
tag, later assignments overwriting earlier ones. -/
def hydrateForItemObj (child : DNode) : List (String × JsVal) :=
  let base : List (String × JsVal) :=
    match getAttrN child "jsdata" with
    | some k => [(k, .str (textContentN child))]
    | none => []
  (querySelectorAll child (.attrPresent "jsdata")).foldl
    (fun acc b =>
      match getAttrN b "jsdata" with
      | some k => aset acc k (.str (textContentN b))
      | none => acc) base

/-- Item list assembly of `hydrateForBindings` (src/ziw.js lines 184-202);
each object-mode item is a fresh allocation. -/
def hydrateForItems (isObjectMode : Bool) : List DNode → Nat → JsList × Nat
  | [], sup => (.nil, sup)
  | child :: rest, sup =>
    if isObjectMode then
      let item := JsVal.obj sup (fieldsOfList (hydrateForItemObj child))
      let (restItems, sup') := hydrateForItems true rest (sup + 1)
      (.cons item restItems, sup')
    else
      let (restItems, sup') := hydrateForItems false rest sup
      (.cons (JsVal.str (textContentN child)) restItems, sup')

/-- The container loop of `hydrateForBindings` (src/ziw.js lines 168-206). -/
def hydrateForLoop (doc : DNode) (compElId : Nat) (templates : List (Nat × DNode)) :
    List DNode → List (String × JsVal) → Nat → List (String × JsVal) × Nat
  | [], st, sup => (st, sup)
  | container :: rest, st, sup =>
    match nodeIdOf container with
    | none => hydrateForLoop doc compElId templates rest st sup
    | some cid =>
      if !(belongsToComponent doc cid compElId) then
        hydrateForLoop doc compElId templates rest st sup
      else
        let key := (getAttrN container "jsfor").getD ""
        match alookup templates cid with
        | none => hydrateForLoop doc compElId templates rest st sup
        | some template =>
          let children := elemChildren container
          if children.isEmpty then hydrateForLoop doc compElId templates rest st sup
          else
            let isObjectMode := (getAttrN template "jsdata").isSome ||
              (querySelector template (.attrPresent "jsdata")).isSome
            let (items, sup') := hydrateForItems isObjectMode children sup
            hydrateForLoop doc compElId templates rest
              (aset st key (.arr sup' items)) (sup' + 1)

/-- `hydrateForBindings(compEl, state)` (src/ziw.js lines 168-206): build
the state array for every owned `jsfor` container from its existing
children. -/
def hydrateForBindings (doc : DNode) (compElId : Nat)
    (templates : List (Nat × DNode)) (st : List (String × JsVal)) (sup : Nat) :
    List (String × JsVal) × Nat :=
  match findByIdN compElId doc with
  | some compEl =>
    hydrateForLoop doc compElId templates
      (querySelectorAll compEl (.attrPresent "jsfor")) st sup
  | none => (st, sup)

/-- Binding resolution within one freshly cloned repeat item (src/ziw.js
lines 232-247): object items resolve `jsdata` tags in the clone's
descendants, then on the clone root (which replaces the whole subtree with
text).  Array items have no named fields to resolve. -/
def resolveCloneBindings (clone : DNode) (fields : JsFields) : DNode :=
  let clone1 := (querySelectorAll clone (.attrPresent "jsdata")).foldl
    (fun c b =>
      match getAttrN b "jsdata", nodeIdOf b with
      | some bindKey, some bid =>
        match fieldsLookup fields bindKey with
        | some v => setTextByIdN bid (jsToString v) c
        | none => c
      | _, _ => c) clone
  match getAttrN clone1 "jsdata" with
  | some rootKey =>
    match fieldsLookup fields rootKey with
    | some v =>
      match clone1 with
      | .elem i t a _ => .elem i t a (.cons (.textN (jsToString v)) .nil)
      | n => n
    | none => clone1
  | none => clone1

/-- The item loop of `updateForBindings` (src/ziw.js lines 228-254):
clone the retained template per item, resolve it, append it. -/
def updateForItems (cid : Nat) (template : DNode) :
    JsList → DNode → Nat → DNode × Nat
  | .nil, doc, sup => (doc, sup)
  | .cons item items, doc, sup =>
    let (clone, sup') := cloneNodeN template sup
    let clone' :=
      match item with
      | .obj _ fields => resolveCloneBindings clone fields
      | .arr _ _ => resolveCloneBindings clone .nil
      | prim =>
        match clone with
        | .elem i t a _ => DNode.elem i t a (.cons (.textN (jsToString prim)) .nil)
        | n => n
    updateForItems cid template items (appendChildById doc cid clone') sup'

/-- The container loop of `updateForBindings` (src/ziw.js lines 219-255):
clear the container entirely, then rebuild it from the item list. -/
def updateForContainers (compElId : Nat) (items : JsList)
    (templates : List (Nat × DNode)) : List DNode → DNode → Nat → DNode × Nat
  | [], doc, sup => (doc, sup)
  | container :: rest, doc, sup =>
    match nodeIdOf container with
    | none => updateForContainers compElId items templates rest doc sup
    | some cid =>
      if !(belongsToComponent doc cid compElId) then
        updateForContainers compElId items templates rest doc sup
      else
        match alookup templates cid with
        | none => updateForContainers compElId items templates rest doc sup
        | some template =>
          let doc1 := clearChildrenById doc cid
          let (doc2, sup') := updateForItems cid template items doc1 sup
          updateForContainers compElId items templates rest doc2 sup'

/-- The key loop of `updateForBindings` (src/ziw.js lines 214-256):
non-array values are skipped. -/
def updateForKeyLoop (compElId : Nat) (st : List (String × JsVal))
    (templates : List (Nat × DNode)) : List String → DNode → Nat → DNode × Nat
  | [], doc, sup => (doc, sup)
  | key :: rest, doc, sup =>
    match lookupD st key with
    | .arr _ items =>
      let containers :=
        match findByIdN compElId doc with
        | some compEl => querySelectorAll compEl (.attrEq "jsfor" key)
        | none => []
      let (doc', sup') :=
        updateForContainers compElId items templates containers doc sup
      updateForKeyLoop compElId st templates rest doc' sup'
    | _ => updateForKeyLoop compElId st templates rest doc sup

/-- `updateForBindings(compEl, state, changedKeys)` (src/ziw.js lines
213-257): list render pass, fully rebuilding each owned container whose
key is in scope. -/
def updateForBindings (doc : DNode) (compElId : Nat) (st : List (String × JsVal))
    (changedKeys : Option (List String)) (templates : List (Nat × DNode))
    (sup : Nat) : DNode × Nat :=
  updateForKeyLoop compElId st templates (changedKeys.getD (akeys st)) doc sup

/-- One conditional binding record (src/ziw.js line 300): the controlled
element, its stable position marker, the state key, the negation flag and
the currently-inserted flag.  Only `el` (as the live subtree) and `inDom`
ever change after creation. -/
structure IfBinding where
  el : DNode
  markerId : Nat
  key : String
  negated : Bool
  inDom : Bool
deriving DecidableEq

/-- The element loop of `initIfBindings` (src/ziw.js lines 276-301).  For
a concrete element (condition true) a comment marker is inserted
immediately before it; for a `template` wrapper (condition false) the
wrapper is the marker and its first content element is held off-tree
(the inert fragment entry is dropped here; it is unreachable either way). -/
def initIfLoop (compElId : Nat) :
    List DNode → DNode → List (String × JsVal) → List IfBinding → Nat →
      DNode × List (String × JsVal) × List IfBinding × Nat
  | [], doc, st, bs, sup => (doc, st, bs, sup)
  | el :: rest, doc, st, bs, sup =>
    match nodeIdOf el with
    | none => initIfLoop compElId rest doc st bs sup
    | some elId =>
      if !(belongsToComponent doc elId compElId) then
        initIfLoop compElId rest doc st bs sup
      else
        let raw := (getAttrN el "jsif").getD ""
        let negated := raw.data.head? == some '!'
        let key := if negated then String.mk (raw.data.drop 1) else raw
        if tagOf el == "template" then
          match (elemChildren el).head? with
          | none => initIfLoop compElId rest doc st bs sup
          | some content =>
            let doc' := (removeByIdN ((nodeIdOf content).getD 0) doc).1
            let b : IfBinding := ⟨content, elId, key, negated, false⟩
            initIfLoop compElId rest doc' (aset st key (.bool negated))
              (bs ++ [b]) sup
        else
          let marker := DNode.commentN sup "jsif"
          let doc' := insertBeforeIdN elId marker doc
          let b : IfBinding := ⟨el, sup, key, negated, true⟩
          initIfLoop compElId rest doc' (aset st key (.bool !negated))
            (bs ++ [b]) (sup + 1)

/-- `initIfBindings(compEl, state)` (src/ziw.js lines 273-303); the
resulting binding list is stored for the component element. -/
def initIfBindings (doc : DNode) (compElId : Nat) (st : List (String × JsVal))
    (store : List (Nat × List IfBinding)) (sup : Nat) :
    DNode × List (String × JsVal) × List (Nat × List IfBinding) × Nat :=
  let els :=
    match findByIdN compElId doc with
    | some compEl => querySelectorAll compEl (.attrPresent "jsif")
    | none => []
  let (doc', st', bs, sup') := initIfLoop compElId els doc st [] sup
  (doc', st', aset store compElId bs, sup')

/-- The binding loop of `updateIfBindings` (src/ziw.js lines 311-322). -/
def updateIfLoop (st : List (String × JsVal)) (changedKeys : Option (List String)) :
    List IfBinding → DNode → List IfBinding → DNode × List IfBinding
  | [], doc, acc => (doc, acc)
  | b :: rest, doc, acc =>
    let skip :=
      match changedKeys with
      | some l => !(l.contains b.key)
      | none => false
    if skip then updateIfLoop st changedKeys rest doc (acc ++ [b])
    else
      let visible :=
        if b.negated then !(truthy (lookupD st b.key))
        else truthy (lookupD st b.key)
      if visible && !b.inDom then
        let doc' := insertBeforeIdN b.markerId b.el doc
        updateIfLoop st changedKeys rest doc' (acc ++ [⟨b.el, b.markerId, b.key, b.negated, true⟩])
      else if !visible && b.inDom then
        let out := removeByIdN ((nodeIdOf b.el).getD 0) doc
        updateIfLoop st changedKeys rest out.1
          (acc ++ [⟨out.2.getD b.el, b.markerId, b.key, b.negated, false⟩])
      else updateIfLoop st changedKeys rest doc (acc ++ [b])

/-- `updateIfBindings(compEl, state, changedKeys)` (src/ziw.js lines
308-323). -/
def updateIfBindings (doc : DNode) (compElId : Nat)
    (store : List (Nat × List IfBinding)) (st : List (String × JsVal))
    (changedKeys : Option (List String)) : DNode × List (Nat × List IfBinding) :=
  match alookup store compElId with
  | none => (doc, store)
  | some bs =>
    let out := updateIfLoop st changedKeys bs doc []
    (out.1, aset store compElId out.2)

/-! ## The DOM/instance world: activation, patching, teardown, registration

`DomWorld` gathers the module-level mutable bindings of the source the
instance layer touches: the document, `componentRegistry`,
`instanceStore`, `forTemplates`, `ifBindingsStore`, `activeEventTypes`
and one identity/allocation supply.  `TStep` records the externally
observable steps (phases, render passes, lifecycle callbacks) in the
order they run. -/

structure DomWorld where
  doc : DNode
  componentRegistry : List (String × ComponentDef)
  instanceStore : List (Nat × Instance)
  forTemplates : List (Nat × DNode)
  ifBindingsStore : List (Nat × List IfBinding)
  activeEventTypes : List String
  supply : Nat
deriving DecidableEq

inductive TStep where
  | cloneState (compElId : Nat)
  | storeInstance (compElId : Nat)
  | initForPass (compElId : Nat)
  | hydrateForPass (compElId : Nat)
  | hydrateDataPass (compElId : Nat)
  | initIfPass (compElId : Nat)
  | renderText (compElId : Nat) (keys : Option (List String))
  | renderList (compElId : Nat) (keys : Option (List String))
  | renderIf (compElId : Nat) (keys : Option (List String))
  | initCb (compElId : Nat) (st : List (String × JsVal))
  | updateCb (compElId : Nat) (st prev : List (String × JsVal))
  | destroyCb (compElId : Nat) (st : List (String × JsVal))
deriving DecidableEq

/-- `initInstance(compEl, def)` (src/ziw.js lines 329-344): no-op without
declared state or when an instance already exists; otherwise deep-clone
the declared state, store the instance (with `prev: null`), run the four
hydration steps, run `updateBindings` once over all keys, then call the
optional `init`.  The source stores the state object by reference before
hydrating it in place, so the stored instance holds the hydrated state;
the pure translation therefore writes the final state into the store while
the trace keeps the store step at its real position. -/
def initInstance (w : DomWorld) (compElId : Nat) (d : ComponentDef) :
    DomWorld × List TStep :=
  match d.state with
  | none => (w, [])
  | some declared =>
    if (alookup w.instanceStore compElId).isSome then (w, [])
    else
      let c := deepCloneState declared w.supply
      let ftOut := initForBindings w.doc compElId w.forTemplates c.2
      let hfOut := hydrateForBindings w.doc compElId ftOut.1 c.1 ftOut.2
      let st2 := hydrateBindings w.doc compElId hfOut.1
      let ifOut := initIfBindings w.doc compElId st2 w.ifBindingsStore hfOut.2
      let stF := ifOut.2.1
      let doc2 := updateBindings ifOut.1 compElId stF none
      let w' : DomWorld :=
        ⟨doc2, w.componentRegistry, aset w.instanceStore compElId ⟨stF, none⟩,
          ftOut.1, ifOut.2.2.1, w.activeEventTypes, ifOut.2.2.2⟩
      let tr := [TStep.cloneState compElId, TStep.storeInstance compElId,
        TStep.initForPass compElId, TStep.hydrateForPass compElId,
        TStep.hydrateDataPass compElId, TStep.initIfPass compElId,
        TStep.renderText compElId none] ++
        (if d.hasInit then [TStep.initCb compElId stF] else [])
      (w', tr)

/-- One invocation of the `setState` closure produced by `makeSetState`
(src/ziw.js lines 349-384): no-op without an instance; otherwise snapshot
the state shallowly as `prev`, shallow-merge the patch recording changed
keys, render the three passes scoped to the changed keys only when some
key changed, then call the optional `update` unconditionally. -/
def setStateRun (w : DomWorld) (compElId : Nat) (d : ComponentDef)
    (patch : List (String × JsVal)) : DomWorld × List TStep :=
  match alookup w.instanceStore compElId with
  | none => (w, [])
  | some inst =>
    let prev := inst.state
    let merged := mergePatch inst.state patch
    let current := merged.1
    let changedKeys := merged.2
    let store1 := aset w.instanceStore compElId ⟨current, some prev⟩
    let rendered :=
      if changedKeys.isEmpty then (w.doc, w.ifBindingsStore, w.supply)
      else
        let doc1 := updateBindings w.doc compElId current (some changedKeys)
        let ufOut := updateForBindings doc1 compElId current (some changedKeys)
          w.forTemplates w.supply
        let uiOut := updateIfBindings ufOut.1 compElId w.ifBindingsStore current
          (some changedKeys)
        (uiOut.1, uiOut.2, ufOut.2)
    let w' : DomWorld :=
      ⟨rendered.1, w.componentRegistry, store1, w.forTemplates,
        rendered.2.1, w.activeEventTypes, rendered.2.2⟩
    let tr :=
      (if changedKeys.isEmpty then []
       else [TStep.renderText compElId (some changedKeys),
         TStep.renderList compElId (some changedKeys),
         TStep.renderIf compElId (some changedKeys)]) ++
      (if d.hasUpdate then [TStep.updateCb compElId current prev] else [])
    (w', tr)

/-- `destroy(compEl)` (src/ziw.js lines 390-400): no-op without an
instance; otherwise call the optional `destroy` lifecycle callback of the
definition registered under the element's component name, then remove the
instance.  `forTemplates` and `ifBindingsStore` are left as they are. -/
def destroy (w : DomWorld) (compElId : Nat) : DomWorld × List TStep :=
  match alookup w.instanceStore compElId with
  | none => (w, [])
  | some inst =>
    let dOpt :=
      match findByIdN compElId w.doc with
      | some el =>
        match getAttrN el "jscomponent" with
        | some nm => alookup w.componentRegistry nm
        | none => none
      | none => none
    let tr :=
      match dOpt with
      | some d => if d.hasDestroy then [TStep.destroyCb compElId inst.state] else []
      | none => []
    (⟨w.doc, w.componentRegistry, aerase w.instanceStore compElId,
      w.forTemplates, w.ifBindingsStore, w.activeEventTypes, w.supply⟩, tr)

/-- Every event type mentioned across the actions of a definition, in
order (src/ziw.js lines 616-624). -/
def collectEventTypes (acts : List (String × List (String × Nat))) : List String :=
  acts.foldl (fun acc a => acc ++ akeys a.2) []

/-- `ensureEventListener(eventType)` (src/ziw.js lines 410-414): a single
global capture-phase listener per event type. -/
def ensureEventListener (types : List String) (t : String) : List String :=
  if types.contains t then types else types ++ [t]

/-- The element loop of `register` (src/ziw.js lines 628-632) over the
static element list. -/
def registerLoop (d : ComponentDef) : List Nat → DomWorld → DomWorld × List TStep
  | [], w => (w, [])
  | elId :: rest, w =>
    let out1 := initInstance w elId d
    let out2 := registerLoop d rest out1.1
    (out2.1, out1.2 ++ out2.2)

/-- `register(name, def)` (src/ziw.js lines 611-633): store the
definition, install listeners for every referenced event type, and — only
when the definition declares state — activate every element of the
document currently carrying this component name. -/
def register (w : DomWorld) (name : String) (d : ComponentDef) :
    DomWorld × List TStep :=
  let w1 : DomWorld :=
    ⟨w.doc, aset w.componentRegistry name d, w.instanceStore, w.forTemplates,
      w.ifBindingsStore,
      (match d.actions with
       | some acts => (collectEventTypes acts).foldl ensureEventListener w.activeEventTypes
       | none => w.activeEventTypes), w.supply⟩
  match d.state with
  | none => (w1, [])
  | some _ =>
    let els := (querySelectorAll w1.doc (.attrEq "jscomponent" name)).filterMap nodeIdOf
    registerLoop d els w1

/-! ## Load/dispatch layer (spec sections 4.1, 4.2, 5)

`globalDispatch`, `loadComponent` and `replayEvents` read the DOM only
through `getAttribute` along the ancestor chain of the event target, so
the chain is made explicit: an `Event` carries the list of elements from
the target upward, the document node excluded (the walk guard
`el !== document`).  `LoadWorld` gathers the module-level bindings this
layer touches; script loads append to `injectedScripts` (one entry per
`<script>` tag actually added), and buffered events live in `eventQueue`. -/

structure Elem where
  id : Nat
  attrs : List (String × String)
deriving DecidableEq

/-- `getAttribute` on a chain element. -/
def getAttrE (e : Elem) (name : String) : Option String :=
  alookup e.attrs name

/-- Attribute read under JS truthiness (source patterns
`el.getAttribute(a) &&`: missing and empty both fail). -/
def getAttrET (e : Elem) (name : String) : Option String :=
  match alookup e.attrs name with
  | some v => if v = "" then none else some v
  | none => none

structure Event where
  eventId : Nat
  eventType : String
  chain : List Elem
deriving DecidableEq

/-- One buffered interaction (src/ziw.js lines 582-589). -/
structure BufferedEvent where
  eventId : Nat
  actionElId : Nat
  compElId : Nat
  compName : String
  actionName : String
  eventType : String
deriving DecidableEq

/-- One handler invocation as observed from outside: the opaque handler,
the original event, the action element, the component element, and the
state context (`{ state, setState }`) when one was passed. -/
structure HandlerCall where
  handler : Nat
  eventId : Nat
  actionElId : Nat
  compElId : Nat
  ctx : Option (List (String × JsVal))
deriving DecidableEq

/-- A pending script: the `onload`/`onerror` closures capture the
component name, the src URL and the promise they settle. -/
structure ScriptLoad where
  name : String
  src : String
  pid : Nat
deriving DecidableEq

inductive DStep where
  | call (c : HandlerCall)
  | enqueue (b : BufferedEvent)
  | inject (s : ScriptLoad)
  | resolve (pid : Nat)
  | reject (pid : Nat)
deriving DecidableEq

structure LoadWorld where
  componentRegistry : List (String × ComponentDef)
  pendingLoads : List (String × Nat)
  injectedScripts : List ScriptLoad
  eventQueue : List BufferedEvent
  instanceStore : List (Nat × Instance)
  nextId : Nat
deriving DecidableEq

/-- `loadComponent(name, src)` (src/ziw.js lines 421-440): an outstanding
load for the same URL is returned as is; otherwise a script tag is
injected and the new operation is recorded in `pendingLoads`. -/
def loadComponent (w : LoadWorld) (name src : String) :
    LoadWorld × Nat × List DStep :=
  match alookup w.pendingLoads src with
  | some pid => (w, pid, [])
  | none =>
    let s : ScriptLoad := ⟨name, src, w.nextId⟩
    (⟨w.componentRegistry, aset w.pendingLoads src w.nextId,
      w.injectedScripts ++ [s], w.eventQueue, w.instanceStore, w.nextId + 1⟩,
      w.nextId, [DStep.inject s])

/-- The state-context computation shared by replay and dispatch
(src/ziw.js lines 454-459 and 564-571): the live instance state exactly
when the definition declares state and an instance exists for the
component element (the handler then also receives the patch closure that
`makeSetState` builds over the same element and definition). -/
def stateCtx (store : List (Nat × Instance)) (d : ComponentDef) (compElId : Nat) :
    Option (List (String × JsVal)) :=
  match d.state with
  | some _ =>
    match alookup store compElId with
    | some inst => some inst.state
    | none => none
  | none => none

/-- The queue loop of `replayEvents` (src/ziw.js lines 447-471): entries
for the loaded component are delivered (with a state context exactly when
the definition declares state and an instance exists) and consumed;
entries for other components are kept in order. -/
def replayLoop (w : LoadWorld) (dOpt : Option ComponentDef) (compName : String) :
    List BufferedEvent → List BufferedEvent × List DStep
  | [] => ([], [])
  | e :: rest =>
    let out := replayLoop w dOpt compName rest
    if e.compName = compName then
      match dOpt with
      | some d =>
        match handlerFor d e.actionName e.eventType with
        | some h =>
          (out.1, DStep.call ⟨h, e.eventId, e.actionElId, e.compElId,
            stateCtx w.instanceStore d e.compElId⟩ :: out.2)
        | none => (out.1, out.2)
      | none => (out.1, out.2)
    else (e :: out.1, out.2)

/-- `replayEvents(compName)` (src/ziw.js lines 445-473). -/
def replayEvents (w : LoadWorld) (compName : String) : LoadWorld × List DStep :=
  let dOpt := alookup w.componentRegistry compName
  let out := replayLoop w dOpt compName w.eventQueue
  (⟨w.componentRegistry, w.pendingLoads, w.injectedScripts, out.1,
    w.instanceStore, w.nextId⟩, out.2)

/-- The script `onload` callback (src/ziw.js lines 427-430): replay the
buffered events for the component, then resolve the load operation — in
that order, so replay is observed strictly before the resolution. -/
def scriptOnload (w : LoadWorld) (s : ScriptLoad) : LoadWorld × List DStep :=
  let out := replayEvents w s.name
  (out.1, out.2 ++ [DStep.resolve s.pid])

/-- The script `onerror` callback (src/ziw.js lines 431-434): drop the
dedup entry for the URL and reject the operation; nothing else changes —
no retry is scheduled and the buffered events stay queued. -/
def scriptOnerror (w : LoadWorld) (s : ScriptLoad) : LoadWorld × List DStep :=
  (⟨w.componentRegistry, aerase w.pendingLoads s.src, w.injectedScripts,
    w.eventQueue, w.instanceStore, w.nextId⟩, [DStep.reject s.pid])

/-- The inner walk of `globalDispatch` (src/ziw.js lines 556-599): from
the action element upward, find the nearest component-marked ancestor;
deliver to the first with a matching registered handler (with a state
context when the definition declares state and an instance exists, and
without one otherwise), or buffer-and-load for an unregistered
interaction-strategy component; an unhandled action bubbles to the next
outer component ancestor.  The Boolean reports whether dispatch stopped. -/
def innerWalk (w : LoadWorld) (ev : Event) (actionEl : Elem) (actionName : String) :
    List Elem → LoadWorld × List DStep × Bool
  | [] => (w, [], false)
  | compEl :: rest =>
    match getAttrET compEl "jscomponent" with
    | none => innerWalk w ev actionEl actionName rest
    | some compName =>
      match alookup w.componentRegistry compName with
      | some d =>
        match handlerFor d actionName ev.eventType with
        | some h =>
          (w, [DStep.call ⟨h, ev.eventId, actionEl.id, compEl.id,
            stateCtx w.instanceStore d compEl.id⟩], true)
        | none => innerWalk w ev actionEl actionName rest
      | none =>
        match getAttrET compEl "jssrc" with
        | some src =>
          if getAttrE compEl "jsload" == some "interaction" then
            let b : BufferedEvent :=
              ⟨ev.eventId, actionEl.id, compEl.id, compName, actionName, ev.eventType⟩
            let w1 : LoadWorld :=
              ⟨w.componentRegistry, w.pendingLoads, w.injectedScripts,
                w.eventQueue ++ [b], w.instanceStore, w.nextId⟩
            let out := loadComponent w1 compName src
            (out.1, DStep.enqueue b :: out.2.2, true)
          else innerWalk w ev actionEl actionName rest
        | none => innerWalk w ev actionEl actionName rest

/-- The outer walk of `globalDispatch` (src/ziw.js lines 552-602): find
action-marked elements from the target upward; for each, run the inner
walk over the same chain starting at that element; stop as soon as an
inner walk stops. -/
def outerWalk (w : LoadWorld) (ev : Event) : List Elem → LoadWorld × List DStep
  | [] => (w, [])
  | el :: rest =>
    match getAttrET el "jsaction" with
    | some actionName =>
      let out := innerWalk w ev el actionName (el :: rest)
      if out.2.2 then (out.1, out.2.1)
      else
        let out2 := outerWalk out.1 ev rest
        (out2.1, out.2.1 ++ out2.2)
    | none => outerWalk w ev rest

/-- `globalDispatch(event)` (src/ziw.js lines 547-603). -/
def globalDispatch (w : LoadWorld) (ev : Event) : LoadWorld × List DStep :=
  outerWalk w ev ev.chain

/-- The handler-invocation steps of a trace. -/
def callsOf (tr : List DStep) : List HandlerCall :=
  tr.filterMap (fun s => match s with
    | .call c => some c
    | _ => none)

/-- The script-injection steps of a trace. -/
def injectsOf (tr : List DStep) : List ScriptLoad :=
  tr.filterMap (fun s => match s with
    | .inject s => some s
    | _ => none)

/-- The render-pass steps of an instance-layer trace. -/
def rendersOf (tr : List TStep) : List TStep :=
  tr.filter (fun s => match s with
    | .renderText _ _ => true
    | .renderList _ _ => true
    | .renderIf _ _ => true
    | _ => false)

/-! # Theorems

Helper lemmas first, then one theorem per claim (with its witness or
counterexample where required). -/

mutual
/-- The clone has the same tag-erased structure as the original; in
particular primitives pass through unchanged. -/
theorem stripRefs_deepClone : ∀ (v : JsVal) (sup : Nat),
    stripRefs (deepClone v sup).1 = stripRefs v
  | .arr _ xs, sup => by
    simp [deepClone, stripRefs, stripRefs_deepCloneList xs sup]
  | .obj _ fs, sup => by
    simp [deepClone, stripRefs, stripRefs_deepCloneFields fs sup]
  | .undefV, _ => rfl
  | .null, _ => rfl
  | .bool _, _ => rfl
  | .num _, _ => rfl
  | .nan, _ => rfl
  | .str _, _ => rfl
/-- Structure preservation for array elements. -/
theorem stripRefs_deepCloneList : ∀ (xs : JsList) (sup : Nat),
    stripRefsList (deepCloneList xs sup).1 = stripRefsList xs
  | .nil, _ => rfl
  | .cons x xs, sup => by
    simp [deepCloneList, stripRefsList, stripRefs_deepClone x sup,
      stripRefs_deepCloneList xs (deepClone x sup).2]
/-- Structure preservation for object fields. -/
theorem stripRefs_deepCloneFields : ∀ (fs : JsFields) (sup : Nat),
    stripRefsFields (deepCloneFields fs sup).1 = stripRefsFields fs
  | .nil, _ => rfl
  | .cons k x fs, sup => by
    simp [deepCloneFields, stripRefsFields, stripRefs_deepClone x sup,
      stripRefs_deepCloneFields fs (deepClone x sup).2]
end

mutual
/-- The supply never decreases while cloning. -/
theorem deepClone_sup_le : ∀ (v : JsVal) (sup : Nat), sup ≤ (deepClone v sup).2
  | .arr _ xs, sup => by
    have h1 := deepCloneList_sup_le xs sup
    simp only [deepClone]
    omega
  | .obj _ fs, sup => by
    have h1 := deepCloneFields_sup_le fs sup
    simp only [deepClone]
    omega
  | .undefV, _ => le_refl _
  | .null, _ => le_refl _
  | .bool _, _ => le_refl _
  | .num _, _ => le_refl _
  | .nan, _ => le_refl _
  | .str _, _ => le_refl _
/-- Supply monotonicity for array elements. -/
theorem deepCloneList_sup_le : ∀ (xs : JsList) (sup : Nat),
    sup ≤ (deepCloneList xs sup).2
  | .nil, _ => le_refl _
  | .cons x xs, sup => by
    have h1 := deepClone_sup_le x sup
    have h2 := deepCloneList_sup_le xs (deepClone x sup).2
    simp only [deepCloneList]
    omega
/-- Supply monotonicity for object fields. -/
theorem deepCloneFields_sup_le : ∀ (fs : JsFields) (sup : Nat),
    sup ≤ (deepCloneFields fs sup).2
  | .nil, _ => le_refl _
  | .cons _ x fs, sup => by
    have h1 := deepClone_sup_le x sup
    have h2 := deepCloneFields_sup_le fs (deepClone x sup).2
    simp only [deepCloneFields]
    omega
end

mutual
/-- Every container produced by the clone is a fresh allocation: all its
tags are at least the starting supply. -/
theorem refsGe_deepClone : ∀ (v : JsVal) (sup : Nat),
    refsGe sup (deepClone v sup).1 = true
  | .arr _ xs, sup => by
    have h1 := refsGe_deepCloneList xs sup
    have h2 := deepCloneList_sup_le xs sup
    simp only [deepClone, refsGe, Bool.and_eq_true, decide_eq_true_eq]
    exact ⟨h2, h1⟩
  | .obj _ fs, sup => by
    have h1 := refsGe_deepCloneFields fs sup
    have h2 := deepCloneFields_sup_le fs sup
    simp only [deepClone, refsGe, Bool.and_eq_true, decide_eq_true_eq]
    exact ⟨h2, h1⟩
  | .undefV, _ => rfl
  | .null, _ => rfl
  | .bool _, _ => rfl
  | .num _, _ => rfl
  | .nan, _ => rfl
  | .str _, _ => rfl
/-- Freshness for array elements. -/
theorem refsGe_deepCloneList : ∀ (xs : JsList) (sup : Nat),
    refsGeList sup (deepCloneList xs sup).1 = true
  | .nil, _ => rfl
  | .cons x xs, sup => by
    have h1 := refsGe_deepClone x sup
    have h2 := refsGe_deepCloneList xs (deepClone x sup).2
    have h3 := deepClone_sup_le x sup
    have h4 := refsGeList_mono ((deepCloneList xs (deepClone x sup).2).1)
      (deepClone x sup).2 sup h3 h2
    simp only [deepCloneList, refsGeList, Bool.and_eq_true]
    exact ⟨h1, h4⟩
/-- Freshness for object fields. -/
theorem refsGe_deepCloneFields : ∀ (fs : JsFields) (sup : Nat),
    refsGeFields sup (deepCloneFields fs sup).1 = true
  | .nil, _ => rfl
  | .cons _ x fs, sup => by
    have h1 := refsGe_deepClone x sup
    have h2 := refsGe_deepCloneFields fs (deepClone x sup).2
    have h3 := deepClone_sup_le x sup
    have h4 := refsGeFields_mono ((deepCloneFields fs (deepClone x sup).2).1)
      (deepClone x sup).2 sup h3 h2
    simp only [deepCloneFields, refsGeFields, Bool.and_eq_true]
    exact ⟨h1, h4⟩
/-- `refsGe` is antitone in the bound (values). -/
theorem refsGe_mono : ∀ (v : JsVal) (m n : Nat), n ≤ m →
    refsGe m v = true → refsGe n v = true
  | .arr r xs, m, n, h, hv => by
    simp only [refsGe, Bool.and_eq_true, decide_eq_true_eq] at hv ⊢
    exact ⟨le_trans h hv.1, refsGeList_mono xs m n h hv.2⟩
  | .obj r fs, m, n, h, hv => by
    simp only [refsGe, Bool.and_eq_true, decide_eq_true_eq] at hv ⊢
    exact ⟨le_trans h hv.1, refsGeFields_mono fs m n h hv.2⟩
  | .undefV, _, _, _, _ => rfl
  | .null, _, _, _, _ => rfl
  | .bool _, _, _, _, _ => rfl
  | .num _, _, _, _, _ => rfl
  | .nan, _, _, _, _ => rfl
  | .str _, _, _, _, _ => rfl
/-- `refsGe` is antitone in the bound (array elements). -/
theorem refsGeList_mono : ∀ (xs : JsList) (m n : Nat), n ≤ m →
    refsGeList m xs = true → refsGeList n xs = true
  | .nil, _, _, _, _ => rfl
  | .cons x xs, m, n, h, hv => by
    simp only [refsGeList, Bool.and_eq_true] at hv ⊢
    exact ⟨refsGe_mono x m n h hv.1, refsGeList_mono xs m n h hv.2⟩
/-- `refsGe` is antitone in the bound (object fields). -/
theorem refsGeFields_mono : ∀ (fs : JsFields) (m n : Nat), n ≤ m →
    refsGeFields m fs = true → refsGeFields n fs = true
  | .nil, _, _, _, _ => rfl
  | .cons _ x fs, m, n, h, hv => by
    simp only [refsGeFields, Bool.and_eq_true] at hv ⊢
    exact ⟨refsGe_mono x m n h hv.1, refsGeFields_mono fs m n h hv.2⟩
end

/-- Structure preservation lifted to the field list of the initial state:
keys are kept in order and every value keeps its tag-erased structure. -/
theorem deepCloneState_strip : ∀ (s : List (String × JsVal)) (sup : Nat),
    ((deepCloneState s sup).1).map (fun p => (p.1, stripRefs p.2)) =
      s.map (fun p => (p.1, stripRefs p.2))
  | [], _ => rfl
  | (k, v) :: rest, sup => by
    simp [deepCloneState, stripRefs_deepClone v sup,
      deepCloneState_strip rest (deepClone v sup).2]


/-! ## Association-list lemmas -/

theorem alookup_aset_self {κ α : Type} [DecidableEq κ]
    (l : List (κ × α)) (k : κ) (v : α) : alookup (aset l k v) k = some v := by
  induction l with
  | nil => simp [aset, alookup]
  | cons hd tl ih =>
    obtain ⟨k0, v0⟩ := hd
    by_cases h : k0 = k
    · simp [aset, alookup, h]
    · simp [aset, alookup, h, ih]

theorem alookup_aset_ne {κ α : Type} [DecidableEq κ]
    (l : List (κ × α)) (k k' : κ) (v : α) (h : k' ≠ k) :
    alookup (aset l k v) k' = alookup l k' := by
  have h2 : ¬(k = k') := fun hc => h hc.symm
  induction l with
  | nil => simp [aset, alookup, h2]
  | cons hd tl ih =>
    obtain ⟨k0, v0⟩ := hd
    by_cases hh : k0 = k
    · subst hh
      simp [aset, alookup, h2]
    · simp [aset, alookup, hh, ih]

theorem alookup_eq_none_of_not_mem {κ α : Type} [DecidableEq κ]
    (l : List (κ × α)) (k : κ) (h : k ∉ akeys l) : alookup l k = none := by
  induction l with
  | nil => rfl
  | cons hd tl ih =>
    obtain ⟨k0, v0⟩ := hd
    simp only [akeys, List.map_cons, List.mem_cons, not_or] at h
    simp only [alookup]
    rw [if_neg (fun hc => h.1 hc.symm)]
    exact ih (by simpa [akeys] using h.2)

theorem akeys_aset_of_mem {κ α : Type} [DecidableEq κ]
    (l : List (κ × α)) (k : κ) (v : α) (h : k ∈ akeys l) :
    akeys (aset l k v) = akeys l := by
  induction l with
  | nil => simp [akeys] at h
  | cons hd tl ih =>
    obtain ⟨k0, v0⟩ := hd
    by_cases hh : k0 = k
    · simp [aset, hh, akeys]
    · have h' : k ∈ akeys tl := by
        simp only [akeys, List.map_cons, List.mem_cons] at h
        rcases h with h | h
        · exact absurd h.symm hh
        · simpa [akeys] using h
      simp only [aset, if_neg hh, akeys, List.map_cons]
      have hmap := ih h'
      simp only [akeys] at hmap
      rw [hmap]

theorem alookup_aerase_self_of_nodup {κ α : Type} [DecidableEq κ]
    (l : List (κ × α)) (k : κ) (hnd : (akeys l).Nodup) :
    alookup (aerase l k) k = none := by
  induction l with
  | nil => simp [aerase, alookup]
  | cons hd tl ih =>
    obtain ⟨k0, v0⟩ := hd
    simp only [akeys, List.map_cons, List.nodup_cons] at hnd
    by_cases hh : k0 = k
    · subst hh
      simp only [aerase, if_pos rfl]
      exact alookup_eq_none_of_not_mem tl k0 (by simpa [akeys] using hnd.1)
    · simp [aerase, hh, alookup, ih hnd.2]

/-! ## mergePatch lemmas -/

theorem mergePatch_changed_sub (cur p : List (String × JsVal)) (k : String)
    (h : k ∈ (mergePatch cur p).2) : k ∈ akeys p := by
  induction p generalizing cur with
  | nil => simp [mergePatch] at h
  | cons hd tl ih =>
    obtain ⟨k0, v0⟩ := hd
    simp only [mergePatch, List.mem_append] at h
    simp only [akeys, List.map_cons]
    rcases h with h1 | h1
    · by_cases hE : jsEq (lookupD cur k0) v0 = true
      · simp [hE] at h1
      · simp only [Bool.not_eq_true] at hE
        simp [hE] at h1
        rw [h1]
        exact List.mem_cons_self _ _
    · exact List.mem_cons_of_mem _ (ih _ h1)

theorem mergePatch_not_changed (cur p : List (String × JsVal)) (k : String)
    (v : JsVal) (hnd : (akeys p).Nodup) (hmem : (k, v) ∈ p)
    (heq : jsEq (lookupD cur k) v = true) : k ∉ (mergePatch cur p).2 := by
  induction p generalizing cur with
  | nil => simp at hmem
  | cons hd tl ih =>
    obtain ⟨k0, v0⟩ := hd
    simp only [akeys, List.map_cons, List.nodup_cons] at hnd
    intro hk
    simp only [mergePatch, List.mem_append] at hk
    rcases List.mem_cons.mp hmem with hm | hm
    · have hk1 : k = k0 := congrArg Prod.fst hm
      have hv : v = v0 := congrArg Prod.snd hm
      subst hk1
      subst hv
      rcases hk with hk | hk
      · simp [heq] at hk
      · exact hnd.1 (by simpa [akeys] using mergePatch_changed_sub _ _ _ hk)
    · have hkne : k0 ≠ k := by
        intro hc
        exact hnd.1 (List.mem_map.mpr ⟨(k, v), hm, by simp [hc]⟩)
      rcases hk with hk | hk
      · by_cases hE : jsEq (lookupD cur k0) v0 = true
        · simp [hE] at hk
        · simp only [Bool.not_eq_true] at hE
          simp [hE] at hk
          exact hkne hk.symm
      · have heq2 : jsEq (lookupD (aset cur k0 v0) k) v = true := by
          unfold lookupD
          rw [alookup_aset_ne cur k0 k v0 (fun hc => hkne hc.symm)]
          exact heq
        exact ih (aset cur k0 v0) hnd.2 hm heq2 hk

/-! ## Claim C6: per-URL load deduplication and the lifetime of the entry -/

/-- Claim C6: requesting a load while a load of that URL is outstanding
returns the same in-flight operation and injects no second script (the
world is untouched); the script `onload` path leaves the pending-load
entry in place; consequently a request after a successful load reuses the
resolved operation instead of reloading. -/
theorem load_dedup_per_url (w : LoadWorld) (name name2 src : String)
    (pid : Nat) (s : ScriptLoad)
    (hpending : alookup w.pendingLoads src = some pid)
    (hs : alookup w.pendingLoads s.src = some s.pid) :
    loadComponent w name src = (w, pid, []) ∧
    (scriptOnload w s).1.pendingLoads = w.pendingLoads ∧
    loadComponent (scriptOnload w s).1 name2 s.src =
      ((scriptOnload w s).1, s.pid, []) := by
  refine ⟨?_, ?_, ?_⟩
  · simp [loadComponent, hpending]
  · simp [scriptOnload, replayEvents]
  · have hkeep : (scriptOnload w s).1.pendingLoads = w.pendingLoads := by
      simp [scriptOnload, replayEvents]
    simp [loadComponent, hkeep, hs]

/-- Witness for C6 on a one-entry pending-load table. -/
theorem load_dedup_per_url_witness :
    loadComponent ⟨[], [("u.js", 7)], [], [], [], 8⟩ "A" "u.js" =
      (⟨[], [("u.js", 7)], [], [], [], 8⟩, 7, []) ∧
    (scriptOnload ⟨[], [("u.js", 7)], [], [], [], 8⟩ ⟨"A", "u.js", 7⟩).1.pendingLoads =
      [("u.js", 7)] ∧
    loadComponent (scriptOnload ⟨[], [("u.js", 7)], [], [], [], 8⟩ ⟨"A", "u.js", 7⟩).1
      "B" "u.js" =
      ((scriptOnload ⟨[], [("u.js", 7)], [], [], [], 8⟩ ⟨"A", "u.js", 7⟩).1, 7, []) :=
  load_dedup_per_url ⟨[], [("u.js", 7)], [], [], [], 8⟩ "A" "B" "u.js" 7
    ⟨"A", "u.js", 7⟩ (by decide) (by decide)

/-! ## Claim C7: failed loads drop the dedup entry, retain the queue -/

/-- Claim C7: on a script load failure the dedup entry for the URL is
removed (so a later attempt injects a fresh script — a retry is possible),
no other state changes — in particular nothing new is injected, so no
automatic retry is scheduled — and every buffered interaction stays queued
unchanged. -/
theorem load_failure_drops_entry_keeps_queue (w : LoadWorld) (s : ScriptLoad)
    (name2 : String) (hnd : (akeys w.pendingLoads).Nodup) :
    let out := scriptOnerror w s
    out.1.pendingLoads = aerase w.pendingLoads s.src ∧
    alookup out.1.pendingLoads s.src = none ∧
    out.1.eventQueue = w.eventQueue ∧
    out.1.injectedScripts = w.injectedScripts ∧
    out.1.componentRegistry = w.componentRegistry ∧
    out.2 = [DStep.reject s.pid] ∧
    injectsOf (loadComponent out.1 name2 s.src).2.2 =
      [⟨name2, s.src, w.nextId⟩] := by
  refine ⟨rfl, ?_, rfl, rfl, rfl, rfl, ?_⟩
  · exact alookup_aerase_self_of_nodup w.pendingLoads s.src hnd
  · have h1 : alookup (aerase w.pendingLoads s.src) s.src = none :=
      alookup_aerase_self_of_nodup w.pendingLoads s.src hnd
    simp [loadComponent, scriptOnerror, h1, injectsOf]

/-- Witness for C7: a failing load for a queued interaction-strategy
component. -/
theorem load_failure_drops_entry_keeps_queue_witness :
    let w : LoadWorld :=
      ⟨[], [("u.js", 7)], [⟨"A", "u.js", 7⟩],
        [⟨0, 1, 2, "A", "go", "click"⟩], [], 8⟩
    let out := scriptOnerror w ⟨"A", "u.js", 7⟩
    out.1.pendingLoads = aerase w.pendingLoads "u.js" ∧
    alookup out.1.pendingLoads "u.js" = none ∧
    out.1.eventQueue = w.eventQueue ∧
    out.1.injectedScripts = w.injectedScripts ∧
    out.1.componentRegistry = w.componentRegistry ∧
    out.2 = [DStep.reject 7] ∧
    injectsOf (loadComponent out.1 "A" "u.js").2.2 = [⟨"A", "u.js", 8⟩] :=
  load_failure_drops_entry_keeps_queue
    ⟨[], [("u.js", 7)], [⟨"A", "u.js", 7⟩],
      [⟨0, 1, 2, "A", "go", "click"⟩], [], 8⟩
    ⟨"A", "u.js", 7⟩ "A" (by decide)

/-! ## updateIfLoop lemmas: bindings outside the key scope are untouched -/

theorem updateIfLoop_cons_skip (st : List (String × JsVal)) (l : List String)
    (hd : IfBinding) (tl : List IfBinding) (doc : DNode) (acc : List IfBinding)
    (h : hd.key ∉ l) :
    updateIfLoop st (some l) (hd :: tl) doc acc =
      updateIfLoop st (some l) tl doc (acc ++ [hd]) := by
  simp [updateIfLoop, h]

theorem updateIfLoop_cons_shape (st : List (String × JsVal)) (ck : Option (List String))
    (hd : IfBinding) (tl : List IfBinding) (doc : DNode) (acc : List IfBinding) :
    ∃ doc2 x, updateIfLoop st ck (hd :: tl) doc acc =
      updateIfLoop st ck tl doc2 (acc ++ [x]) := by
  simp only [updateIfLoop]
  repeat first
  | exact ⟨_, _, rfl⟩
  | split

theorem updateIfLoop_acc_mem (st : List (String × JsVal)) (ck : Option (List String)) :
    ∀ (bs : List IfBinding) (doc : DNode) (acc : List IfBinding) (b : IfBinding),
      b ∈ acc → b ∈ (updateIfLoop st ck bs doc acc).2
  | [], doc, acc, b, h => by simpa [updateIfLoop] using h
  | hd :: tl, doc, acc, b, h => by
    obtain ⟨doc2, x, heq⟩ := updateIfLoop_cons_shape st ck hd tl doc acc
    rw [heq]
    exact updateIfLoop_acc_mem st ck tl doc2 (acc ++ [x]) b (List.mem_append_left _ h)

theorem updateIfLoop_skip_mem (st : List (String × JsVal)) (l : List String)
    (b : IfBinding) (hbk : b.key ∉ l) :
    ∀ (bs : List IfBinding) (doc : DNode) (acc : List IfBinding),
      b ∈ bs → b ∈ (updateIfLoop st (some l) bs doc acc).2
  | [], _, _, h => by simp at h
  | hd :: tl, doc, acc, h => by
    rcases List.mem_cons.mp h with rfl | h2
    · rw [updateIfLoop_cons_skip st l b tl doc acc hbk]
      exact updateIfLoop_acc_mem st (some l) tl doc (acc ++ [b]) b (by simp)
    · obtain ⟨doc2, x, heq⟩ := updateIfLoop_cons_shape st (some l) hd tl doc acc
      rw [heq]
      exact updateIfLoop_skip_mem st l b hbk tl doc2 (acc ++ [x]) h2

/-! ## Claim C5: change detection and render scoping of setState -/

/-- Claim C5: for every patch applied to an existing instance, a key whose
merged value is reference/value-equal (`===`) to its prior value never
appears in the changed-key set (and only patch keys ever can); when no key
changed, no render pass runs and the document and conditional-binding
store are untouched; when some key changed, the text, list and conditional
render passes run exactly once each, in that order, scoped to exactly the
changed keys; and a conditional binding whose key is not a changed key
survives the patch untouched. -/
theorem patch_change_detection (w : DomWorld) (compElId : Nat)
    (d : ComponentDef) (patch : List (String × JsVal)) (inst : Instance)
    (hinst : alookup w.instanceStore compElId = some inst)
    (hnd : (akeys patch).Nodup) :
    (∀ k v, (k, v) ∈ patch → jsEq (lookupD inst.state k) v = true →
      k ∉ (mergePatch inst.state patch).2) ∧
    (∀ k, k ∈ (mergePatch inst.state patch).2 → k ∈ akeys patch) ∧
    ((mergePatch inst.state patch).2 = [] →
      rendersOf (setStateRun w compElId d patch).2 = [] ∧
      (setStateRun w compElId d patch).1.doc = w.doc ∧
      (setStateRun w compElId d patch).1.ifBindingsStore = w.ifBindingsStore) ∧
    ((mergePatch inst.state patch).2 ≠ [] →
      rendersOf (setStateRun w compElId d patch).2 =
        [TStep.renderText compElId (some (mergePatch inst.state patch).2),
         TStep.renderList compElId (some (mergePatch inst.state patch).2),
         TStep.renderIf compElId (some (mergePatch inst.state patch).2)]) ∧
    (∀ bs b, alookup w.ifBindingsStore compElId = some bs → b ∈ bs →
      b.key ∉ (mergePatch inst.state patch).2 →
      ∃ bs', alookup (setStateRun w compElId d patch).1.ifBindingsStore compElId =
        some bs' ∧ b ∈ bs') := by
  refine ⟨?_, ?_, ?_, ?_, ?_⟩
  · exact fun k v hm he => mergePatch_not_changed inst.state patch k v hnd hm he
  · exact fun k h => mergePatch_changed_sub inst.state patch k h
  · intro hempty
    simp only [setStateRun, hinst]
    simp [hempty, rendersOf]
  · intro hne
    have hne2 : ((mergePatch inst.state patch).2).isEmpty = false := by
      cases hmp : (mergePatch inst.state patch).2 with
      | nil => exact absurd hmp hne
      | cons a l => simp [hmp, List.isEmpty]
    simp only [setStateRun, hinst]
    simp [hne2, rendersOf]
  · intro bs b hbs hb hbk
    by_cases hempty : (mergePatch inst.state patch).2 = []
    · simp only [setStateRun, hinst]
      simp [hempty]
      exact ⟨bs, hbs, hb⟩
    · have hne2 : ((mergePatch inst.state patch).2).isEmpty = false := by
        cases hmp : (mergePatch inst.state patch).2 with
        | nil => exact absurd hmp hempty
        | cons a l => simp [hmp, List.isEmpty]
      simp only [setStateRun, hinst]
      simp [hne2, updateIfBindings, hbs]
      exact ⟨_, alookup_aset_self _ _ _, updateIfLoop_skip_mem _ _ b hbk bs _ [] hb⟩

/-- Concrete world for the C5 witness: one instance, for element 1. -/
def cw5 : DomWorld :=
  ⟨.elem 0 "#document" [] .nil, [], [(1, ⟨[("x", .num 1)], none⟩)], [], [], [], 10⟩

/-- Definition used by the C5 witness. -/
def cd5 : ComponentDef := ⟨some [("x", .num 0)], false, true, false, none⟩

/-- Patch used by the C5 witness: `x` re-sent with its current value, `y`
fresh. -/
def cp5 : List (String × JsVal) := [("x", .num 1), ("y", .str "a")]

/-- Instance used by the C5 witness. -/
def ci5 : Instance := ⟨[("x", .num 1)], none⟩

/-- Witness for C5 at a concrete world. -/
theorem patch_change_detection_witness :
    (∀ k v, (k, v) ∈ cp5 → jsEq (lookupD ci5.state k) v = true →
      k ∉ (mergePatch ci5.state cp5).2) ∧
    (∀ k, k ∈ (mergePatch ci5.state cp5).2 → k ∈ akeys cp5) ∧
    ((mergePatch ci5.state cp5).2 = [] →
      rendersOf (setStateRun cw5 1 cd5 cp5).2 = [] ∧
      (setStateRun cw5 1 cd5 cp5).1.doc = cw5.doc ∧
      (setStateRun cw5 1 cd5 cp5).1.ifBindingsStore = cw5.ifBindingsStore) ∧
    ((mergePatch ci5.state cp5).2 ≠ [] →
      rendersOf (setStateRun cw5 1 cd5 cp5).2 =
        [TStep.renderText 1 (some (mergePatch ci5.state cp5).2),
         TStep.renderList 1 (some (mergePatch ci5.state cp5).2),
         TStep.renderIf 1 (some (mergePatch ci5.state cp5).2)]) ∧
    (∀ bs b, alookup cw5.ifBindingsStore 1 = some bs → b ∈ bs →
      b.key ∉ (mergePatch ci5.state cp5).2 →
      ∃ bs', alookup (setStateRun cw5 1 cd5 cp5).1.ifBindingsStore 1 =
        some bs' ∧ b ∈ bs') :=
  patch_change_detection cw5 1 cd5 cp5 ci5 (by decide) (by decide)

/-! ## Dispatch lemmas -/

theorem callsOf_loadComponent (w : LoadWorld) (n s : String) :
    callsOf (loadComponent w n s).2.2 = [] := by
  unfold loadComponent
  cases alookup w.pendingLoads s <;> simp [callsOf]

theorem innerWalk_not_stopped (w : LoadWorld) (ev : Event) (actionEl : Elem)
    (a : String) : ∀ chain : List Elem,
      (innerWalk w ev actionEl a chain).2.2 = false →
      (innerWalk w ev actionEl a chain).2.1 = [] ∧
        (innerWalk w ev actionEl a chain).1 = w
  | [] => fun _ => ⟨rfl, rfl⟩
  | compEl :: rest => by
    simp only [innerWalk]
    split
    · exact innerWalk_not_stopped w ev actionEl a rest
    · split
      · split
        · intro h
          simp at h
        · exact innerWalk_not_stopped w ev actionEl a rest
      · split
        · split
          · intro h
            simp at h
          · exact innerWalk_not_stopped w ev actionEl a rest
        · exact innerWalk_not_stopped w ev actionEl a rest

theorem innerWalk_calls_le (w : LoadWorld) (ev : Event) (actionEl : Elem)
    (a : String) : ∀ chain : List Elem,
      (callsOf (innerWalk w ev actionEl a chain).2.1).length ≤ 1
  | [] => by simp [innerWalk, callsOf]
  | compEl :: rest => by
    simp only [innerWalk]
    split
    · exact innerWalk_calls_le w ev actionEl a rest
    · split
      · split
        · simp [callsOf]
        · exact innerWalk_calls_le w ev actionEl a rest
      · split
        · split
          · have hl := callsOf_loadComponent
            simp only [callsOf] at hl
            simp [callsOf, hl]
          · exact innerWalk_calls_le w ev actionEl a rest
        · exact innerWalk_calls_le w ev actionEl a rest

theorem outerWalk_calls_le (ev : Event) :
    ∀ (chain : List Elem) (w : LoadWorld),
      (callsOf (outerWalk w ev chain).2).length ≤ 1
  | [], w => by simp [outerWalk, callsOf]
  | el :: rest, w => by
    simp only [outerWalk]
    split
    · rename_i actionName hattr
      by_cases hstop : (innerWalk w ev el actionName (el :: rest)).2.2 = true
      · simp only [hstop, if_pos rfl]
        exact innerWalk_calls_le w ev el actionName (el :: rest)
      · have hfalse : (innerWalk w ev el actionName (el :: rest)).2.2 = false := by
          simpa using hstop
        obtain ⟨htr, hw⟩ := innerWalk_not_stopped w ev el actionName (el :: rest) hfalse
        simp only [hfalse, htr, hw, Bool.false_eq_true, if_false,
          List.nil_append]
        exact outerWalk_calls_le ev rest w
    · exact outerWalk_calls_le ev rest w

/-! ## Claim C3: at most one handler; action bubbling; short-circuit -/

/-- Claim C3: every raw interaction invokes at most one handler; with
nested components B (inner) and A (outer) and an action element inside B,
if B's registered definition has no handler for the (action, event-type)
pair and A's does, dispatch invokes A's handler exactly once (action
bubbling); and if B's definition does have a matching handler, dispatch
invokes it exactly once and no outer handler is ever invoked
(short-circuit). -/
theorem dispatch_resolution (w : LoadWorld) (eid i0 i1 i2 : Nat)
    (t a bName aName : String) (defB defA : ComponentDef) (hA hB : Nat)
    (ha : a ≠ "") (hbn : bName ≠ "") (han : aName ≠ "")
    (hrB : alookup w.componentRegistry bName = some defB)
    (hrA : alookup w.componentRegistry aName = some defA)
    (hAhandler : handlerFor defA a t = some hA) :
    (∀ (w2 : LoadWorld) (ev : Event),
      (callsOf (globalDispatch w2 ev).2).length ≤ 1) ∧
    (handlerFor defB a t = none →
      ∃ ctx, callsOf (globalDispatch w ⟨eid, t,
        [⟨i0, [("jsaction", a)]⟩, ⟨i1, [("jscomponent", bName)]⟩,
         ⟨i2, [("jscomponent", aName)]⟩]⟩).2 = [⟨hA, eid, i0, i2, ctx⟩]) ∧
    (handlerFor defB a t = some hB →
      ∃ ctx, callsOf (globalDispatch w ⟨eid, t,
        [⟨i0, [("jsaction", a)]⟩, ⟨i1, [("jscomponent", bName)]⟩,
         ⟨i2, [("jscomponent", aName)]⟩]⟩).2 = [⟨hB, eid, i0, i1, ctx⟩]) := by
  refine ⟨fun w2 ev => outerWalk_calls_le ev ev.chain w2, ?_, ?_⟩
  · intro hBnone
    simp only [globalDispatch, outerWalk, innerWalk, getAttrET, getAttrE, alookup]
    simp [ha, hbn, han, hrB, hrA, hBnone, hAhandler, callsOf]
  · intro hBsome
    simp only [globalDispatch, outerWalk, innerWalk, getAttrET, getAttrE, alookup]
    simp [ha, hbn, han, hrB, hrA, hBsome, callsOf]

/-- Inner definition for the C3 witness: B handles `go` only on `keydown`. -/
def cdB3 : ComponentDef := ⟨none, false, false, false, some [("go", [("keydown", 21)])]⟩

/-- Outer definition for the C3 witness: A handles `go` on `click`. -/
def cdA3 : ComponentDef := ⟨none, false, false, false, some [("go", [("click", 22)])]⟩

/-- Registry for the C3 witness. -/
def cw3 : LoadWorld := ⟨[("B", cdB3), ("A", cdA3)], [], [], [], [], 0⟩

/-- Witness for C3: a click on the action element nested in B bubbles to
A's handler. -/
theorem dispatch_resolution_witness :
    (∀ (w2 : LoadWorld) (ev : Event),
      (callsOf (globalDispatch w2 ev).2).length ≤ 1) ∧
    (handlerFor cdB3 "go" "click" = none →
      ∃ ctx, callsOf (globalDispatch cw3 ⟨0, "click",
        [⟨1, [("jsaction", "go")]⟩, ⟨2, [("jscomponent", "B")]⟩,
         ⟨3, [("jscomponent", "A")]⟩]⟩).2 = [⟨22, 0, 1, 3, ctx⟩]) ∧
    (handlerFor cdB3 "go" "click" = some 99 →
      ∃ ctx, callsOf (globalDispatch cw3 ⟨0, "click",
        [⟨1, [("jsaction", "go")]⟩, ⟨2, [("jscomponent", "B")]⟩,
         ⟨3, [("jscomponent", "A")]⟩]⟩).2 = [⟨99, 0, 1, 2, ctx⟩]) :=
  dispatch_resolution cw3 0 1 2 3 "click" "go" "B" "A" cdB3 cdA3 22 99
    (by decide) (by decide) (by decide) (by decide) (by decide) (by decide)

/-! ## Claim C4: the state context passed to handlers -/

/-- World for the C4 counterexample: B declares state and a matching
handler but has no instance; A above it also has a matching handler. -/
def cw4 : LoadWorld :=
  ⟨[("B", ⟨some [("x", .num 0)], false, false, false,
      some [("go", [("click", 21)])]⟩),
    ("A", ⟨none, false, false, false, some [("go", [("click", 22)])]⟩)],
   [], [], [], [], 0⟩

/-- Event for the C4 counterexample. -/
def ev4 : Event :=
  ⟨0, "click", [⟨1, [("jsaction", "go")]⟩, ⟨2, [("jscomponent", "B")]⟩,
    ⟨3, [("jscomponent", "A")]⟩]⟩

/-- Counterexample to C4 as stated: with a matching handler on a
registered stateful component that has no instance, the claim predicts
dispatch does not invoke the handler there and continues the walk (so A's
handler 22 would run); the code instead invokes B's handler 21, with no
state-context argument, and stops. -/
theorem handler_no_context_counterexample :
    callsOf (globalDispatch cw4 ev4).2 = [⟨21, 0, 1, 2, none⟩] := by decide

/-- Claim C4 (amended): when dispatch finds a matching handler on a
component whose definition declares initial state, the handler receives
the live per-instance state (the `{ state, setState }` context) when an
instance exists for the component element; when no instance exists the
handler is still invoked, without a state-context argument, and dispatch
stops either way. -/
theorem handler_state_context (w : LoadWorld) (eid i0 i1 : Nat)
    (t a bName : String) (defB : ComponentDef) (hB : Nat)
    (s0 : List (String × JsVal))
    (ha : a ≠ "") (hbn : bName ≠ "")
    (hrB : alookup w.componentRegistry bName = some defB)
    (hstate : defB.state = some s0)
    (hhandler : handlerFor defB a t = some hB) :
    (∀ inst, alookup w.instanceStore i1 = some inst →
      callsOf (globalDispatch w ⟨eid, t,
        [⟨i0, [("jsaction", a)]⟩, ⟨i1, [("jscomponent", bName)]⟩]⟩).2 =
        [⟨hB, eid, i0, i1, some inst.state⟩]) ∧
    (alookup w.instanceStore i1 = none →
      callsOf (globalDispatch w ⟨eid, t,
        [⟨i0, [("jsaction", a)]⟩, ⟨i1, [("jscomponent", bName)]⟩]⟩).2 =
        [⟨hB, eid, i0, i1, none⟩]) := by
  constructor
  · intro inst hinst
    simp only [globalDispatch, outerWalk, innerWalk, getAttrET, getAttrE, alookup]
    simp [ha, hbn, hrB, hstate, hinst, hhandler, callsOf, stateCtx]
  · intro hinst
    simp only [globalDispatch, outerWalk, innerWalk, getAttrET, getAttrE, alookup]
    simp [ha, hbn, hrB, hstate, hinst, hhandler, callsOf, stateCtx]

/-- Definition for the C4 witness. -/
def cdB4 : ComponentDef :=
  ⟨some [("x", .num 0)], false, false, false, some [("go", [("click", 21)])]⟩

/-- World for the C4 witness: B registered, one instance for element 2. -/
def cw4w : LoadWorld :=
  ⟨[("B", cdB4)], [], [], [], [(2, ⟨[("x", .num 5)], none⟩)], 0⟩

/-- Witness for C4 at a concrete world with an instance present. -/
theorem handler_state_context_witness :
    (∀ inst, alookup cw4w.instanceStore 2 = some inst →
      callsOf (globalDispatch cw4w ⟨0, "click",
        [⟨1, [("jsaction", "go")]⟩, ⟨2, [("jscomponent", "B")]⟩]⟩).2 =
        [⟨21, 0, 1, 2, some inst.state⟩]) ∧
    (alookup cw4w.instanceStore 2 = none →
      callsOf (globalDispatch cw4w ⟨0, "click",
        [⟨1, [("jsaction", "go")]⟩, ⟨2, [("jscomponent", "B")]⟩]⟩).2 =
        [⟨21, 0, 1, 2, none⟩]) :=
  handler_state_context cw4w 0 1 2 "click" "go" "B" cdB4 21 [("x", .num 0)]
    (by decide) (by decide) (by decide) (by decide) (by decide)

/-! ## replayEvents lemmas -/

theorem replayLoop_remaining (w : LoadWorld) (dOpt : Option ComponentDef)
    (n : String) : ∀ q : List BufferedEvent,
      (replayLoop w dOpt n q).1 = q.filter (fun e => !(e.compName == n))
  | [] => rfl
  | e :: q => by
    have ih := replayLoop_remaining w dOpt n q
    by_cases h : e.compName = n
    · rcases dOpt with _ | d
      · simpa [replayLoop, h] using ih
      · cases hh : handlerFor d e.actionName e.eventType <;>
          simpa [replayLoop, h, hh] using ih
    · simp [replayLoop, h, ih]

theorem replayLoop_calls (w : LoadWorld) (d : ComponentDef) (n : String) :
    ∀ q : List BufferedEvent,
      callsOf (replayLoop w (some d) n q).2 =
        (q.filter (fun e => e.compName == n)).filterMap
          (fun e => (handlerFor d e.actionName e.eventType).map
            (fun h => ⟨h, e.eventId, e.actionElId, e.compElId,
              stateCtx w.instanceStore d e.compElId⟩))
  | [] => rfl
  | e :: q => by
    have ih := replayLoop_calls w d n q
    simp only [callsOf] at ih
    by_cases h : e.compName = n
    · cases hh : handlerFor d e.actionName e.eventType <;>
        simp [replayLoop, h, hh, callsOf, ih]
    · simp [replayLoop, h, callsOf, ih]

/-! ## Claim C2: interaction buffering, single load, ordered replay -/

/-- Claim C2: an interaction reaching an unregistered interaction-strategy
component enqueues exactly one BufferedEvent; the first such interaction
injects exactly one script while any recurrence before the load resolves
enqueues again but injects nothing (the pending load is shared); when the
load completes, the buffered interactions of that component are replayed
in original arrival order, exactly once each (those with a registered
handler), strictly before the load resolution step, after which the queue
holds no entry for that component name. -/
theorem interaction_buffering_and_replay (w : LoadWorld) (eid i0 i1 : Nat)
    (t a n src : String)
    (ha : a ≠ "") (hn : n ≠ "") (hsrc : src ≠ "")
    (hunreg : alookup w.componentRegistry n = none) :
    (alookup w.pendingLoads src = none →
      globalDispatch w ⟨eid, t, [⟨i0, [("jsaction", a)]⟩,
        ⟨i1, [("jscomponent", n), ("jssrc", src), ("jsload", "interaction")]⟩]⟩ =
      (⟨w.componentRegistry, aset w.pendingLoads src w.nextId,
        w.injectedScripts ++ [⟨n, src, w.nextId⟩],
        w.eventQueue ++ [⟨eid, i0, i1, n, a, t⟩], w.instanceStore, w.nextId + 1⟩,
       [DStep.enqueue ⟨eid, i0, i1, n, a, t⟩, DStep.inject ⟨n, src, w.nextId⟩])) ∧
    (∀ pid, alookup w.pendingLoads src = some pid →
      globalDispatch w ⟨eid, t, [⟨i0, [("jsaction", a)]⟩,
        ⟨i1, [("jscomponent", n), ("jssrc", src), ("jsload", "interaction")]⟩]⟩ =
      (⟨w.componentRegistry, w.pendingLoads, w.injectedScripts,
        w.eventQueue ++ [⟨eid, i0, i1, n, a, t⟩], w.instanceStore, w.nextId⟩,
       [DStep.enqueue ⟨eid, i0, i1, n, a, t⟩])) ∧
    (∀ (w2 : LoadWorld) (s : ScriptLoad),
      (scriptOnload w2 s).2 = (replayEvents w2 s.name).2 ++ [DStep.resolve s.pid] ∧
      (scriptOnload w2 s).1.eventQueue =
        w2.eventQueue.filter (fun e => !(e.compName == s.name)) ∧
      (scriptOnload w2 s).1.eventQueue.filter (fun e => e.compName == s.name) = [] ∧
      (∀ d, alookup w2.componentRegistry s.name = some d →
        callsOf (replayEvents w2 s.name).2 =
          (w2.eventQueue.filter (fun e => e.compName == s.name)).filterMap
            (fun e => (handlerFor d e.actionName e.eventType).map
              (fun h => ⟨h, e.eventId, e.actionElId, e.compElId,
                stateCtx w2.instanceStore d e.compElId⟩)))) := by
  refine ⟨?_, ?_, ?_⟩
  · intro hpending
    simp only [globalDispatch, outerWalk, innerWalk, getAttrET, getAttrE,
      alookup, loadComponent]
    simp [ha, hn, hsrc, hunreg, hpending]
  · intro pid hpending
    simp only [globalDispatch, outerWalk, innerWalk, getAttrET, getAttrE,
      alookup, loadComponent]
    simp [ha, hn, hsrc, hunreg, hpending]
  · intro w2 s
    refine ⟨rfl, ?_, ?_, ?_⟩
    · simpa [scriptOnload, replayEvents] using
        replayLoop_remaining w2 (alookup w2.componentRegistry s.name) s.name
          w2.eventQueue
    · have hq : (scriptOnload w2 s).1.eventQueue =
          w2.eventQueue.filter (fun e => !(e.compName == s.name)) := by
        simpa [scriptOnload, replayEvents] using
          replayLoop_remaining w2 (alookup w2.componentRegistry s.name) s.name
            w2.eventQueue
      rw [hq]
      rw [List.filter_eq_nil_iff]
      intro e he
      have := (List.mem_filter.mp he).2
      simpa using this
    · intro d hd
      have := replayLoop_calls w2 d s.name w2.eventQueue
      simpa [replayEvents, hd] using this

/-- Witness for C2: a first and a second identical interaction on an
unregistered interaction-strategy component, then a successful load. -/
theorem interaction_buffering_and_replay_witness :
    (alookup (⟨[], [], [], [], [], 5⟩ : LoadWorld).pendingLoads "u.js" = none →
      globalDispatch ⟨[], [], [], [], [], 5⟩ ⟨0, "click", [⟨1, [("jsaction", "go")]⟩,
        ⟨2, [("jscomponent", "W"), ("jssrc", "u.js"), ("jsload", "interaction")]⟩]⟩ =
      (⟨[], aset [] "u.js" 5, [⟨"W", "u.js", 5⟩],
        [⟨0, 1, 2, "W", "go", "click"⟩], [], 6⟩,
       [DStep.enqueue ⟨0, 1, 2, "W", "go", "click"⟩,
        DStep.inject ⟨"W", "u.js", 5⟩])) ∧
    (∀ pid, alookup (⟨[], [], [], [], [], 5⟩ : LoadWorld).pendingLoads "u.js" = some pid →
      globalDispatch ⟨[], [], [], [], [], 5⟩ ⟨0, "click", [⟨1, [("jsaction", "go")]⟩,
        ⟨2, [("jscomponent", "W"), ("jssrc", "u.js"), ("jsload", "interaction")]⟩]⟩ =
      (⟨[], [], [], [⟨0, 1, 2, "W", "go", "click"⟩], [], 5⟩,
       [DStep.enqueue ⟨0, 1, 2, "W", "go", "click"⟩])) ∧
    (∀ (w2 : LoadWorld) (s : ScriptLoad),
      (scriptOnload w2 s).2 = (replayEvents w2 s.name).2 ++ [DStep.resolve s.pid] ∧
      (scriptOnload w2 s).1.eventQueue =
        w2.eventQueue.filter (fun e => !(e.compName == s.name)) ∧
      (scriptOnload w2 s).1.eventQueue.filter (fun e => e.compName == s.name) = [] ∧
      (∀ d, alookup w2.componentRegistry s.name = some d →
        callsOf (replayEvents w2 s.name).2 =
          (w2.eventQueue.filter (fun e => e.compName == s.name)).filterMap
            (fun e => (handlerFor d e.actionName e.eventType).map
              (fun h => ⟨h, e.eventId, e.actionElId, e.compElId,
                stateCtx w2.instanceStore d e.compElId⟩)))) :=
  interaction_buffering_and_replay ⟨[], [], [], [], [], 5⟩ 0 1 2 "click" "go" "W"
    "u.js" (by decide) (by decide) (by decide) (by decide)

/-! ## deepCloneState lemmas -/

theorem deepCloneState_sup_le : ∀ (s : List (String × JsVal)) (sup : Nat),
    sup ≤ (deepCloneState s sup).2
  | [], _ => le_refl _
  | (k, v) :: rest, sup => by
    have h1 := deepClone_sup_le v sup
    have h2 := deepCloneState_sup_le rest (deepClone v sup).2
    simp only [deepCloneState]
    omega

theorem deepCloneState_refsGe : ∀ (s : List (String × JsVal)) (sup : Nat)
    (k : String) (v : JsVal), (k, v) ∈ (deepCloneState s sup).1 →
    refsGe sup v = true
  | [], _, _, _, h => by simp [deepCloneState] at h
  | (k0, v0) :: rest, sup, k, v, h => by
    simp only [deepCloneState, List.mem_cons] at h
    rcases h with h | h
    · have hv : v = (deepClone v0 sup).1 := congrArg Prod.snd h
      rw [hv]
      exact refsGe_deepClone v0 sup
    · have h2 := deepCloneState_refsGe rest (deepClone v0 sup).2 k v h
      exact refsGe_mono v (deepClone v0 sup).2 sup (deepClone_sup_le v0 sup) h2

/-! ## Claim C1: the activation sequence of initInstance -/

/-- Claim C1 (amended): for a component element with a registered
definition declaring initial state and no existing instance, activation
deep-clones the declared state (structure preserved, primitives passed
through unchanged, every cloned container a fresh allocation), stores the
instance with no previous-state snapshot, runs the four binding-hydration
steps against that state before it is exposed, runs the text render pass
once — the list and conditional render passes are not run at activation —
and finally invokes the optional `init` callback with the hydrated
state. -/
theorem activation_sequence (w : DomWorld) (compElId : Nat) (d : ComponentDef)
    (declared : List (String × JsVal))
    (hstate : d.state = some declared)
    (hfresh : alookup w.instanceStore compElId = none) :
    (∃ stF, (initInstance w compElId d).2 =
        [TStep.cloneState compElId, TStep.storeInstance compElId,
         TStep.initForPass compElId, TStep.hydrateForPass compElId,
         TStep.hydrateDataPass compElId, TStep.initIfPass compElId,
         TStep.renderText compElId none] ++
        (if d.hasInit then [TStep.initCb compElId stF] else []) ∧
      alookup (initInstance w compElId d).1.instanceStore compElId =
        some ⟨stF, none⟩) ∧
    rendersOf (initInstance w compElId d).2 = [TStep.renderText compElId none] ∧
    ((deepCloneState declared w.supply).1).map (fun p => (p.1, stripRefs p.2)) =
      declared.map (fun p => (p.1, stripRefs p.2)) ∧
    (∀ k v, (k, v) ∈ (deepCloneState declared w.supply).1 →
      refsGe w.supply v = true) := by
  refine ⟨?_, ?_, deepCloneState_strip declared w.supply,
    fun k v h => deepCloneState_refsGe declared w.supply k v h⟩
  · simp only [initInstance, hstate, hfresh, Option.isSome_none,
      Bool.false_eq_true, if_false]
    exact ⟨_, rfl, alookup_aset_self _ _ _⟩
  · simp only [initInstance, hstate, hfresh, Option.isSome_none,
      Bool.false_eq_true, if_false]
    cases d.hasInit <;> simp [rendersOf]

/-- Document for the C1 counterexample and witness: the component owns a
list-repeat container and a concrete conditional element, so the list and
conditional render passes would have had work to do at activation. -/
def cdoc1 : DNode :=
  .elem 0 "#document" [] (.cons
    (.elem 1 "div" [("jscomponent", "C")] (.cons
      (.elem 2 "ul" [("jsfor", "xs")] (.cons
        (.elem 3 "li" [] (.cons (.textN "a") .nil)) .nil))
      (.cons (.elem 4 "p" [("jsif", "visible")] (.cons (.textN "t") .nil))
        .nil))) .nil)

/-- Definition for the C1 counterexample and witness. -/
def cd1 : ComponentDef :=
  ⟨some [("xs", .arr 0 .nil), ("visible", .bool false)], true, false, false, none⟩

/-- World for the C1 counterexample and witness. -/
def cw1 : DomWorld := ⟨cdoc1, [], [], [], [], [], 10⟩

/-- Counterexample to C1 as stated: at activation the engine runs only the
text render pass — the trace contains no list render pass and no
conditional render pass, although the claim says all three run once. -/
theorem activation_no_list_cond_render_counterexample :
    rendersOf (initInstance cw1 1 cd1).2 = [TStep.renderText 1 none] ∧
    ((initInstance cw1 1 cd1).2.filter (fun t => match t with
      | TStep.renderList _ _ => true
      | TStep.renderIf _ _ => true
      | _ => false)) = [] := by decide

/-- Witness for C1 (amended) at the concrete world. -/
theorem activation_sequence_witness :
    (∃ stF, (initInstance cw1 1 cd1).2 =
        [TStep.cloneState 1, TStep.storeInstance 1,
         TStep.initForPass 1, TStep.hydrateForPass 1,
         TStep.hydrateDataPass 1, TStep.initIfPass 1,
         TStep.renderText 1 none] ++
        (if cd1.hasInit then [TStep.initCb 1 stF] else []) ∧
      alookup (initInstance cw1 1 cd1).1.instanceStore 1 = some ⟨stF, none⟩) ∧
    rendersOf (initInstance cw1 1 cd1).2 = [TStep.renderText 1 none] ∧
    ((deepCloneState [("xs", .arr 0 .nil), ("visible", .bool false)]
        cw1.supply).1).map (fun p => (p.1, stripRefs p.2)) =
      [("xs", JsVal.arr 0 .nil), ("visible", JsVal.bool false)].map
        (fun p => (p.1, stripRefs p.2)) ∧
    (∀ k v, (k, v) ∈ (deepCloneState
        [("xs", .arr 0 .nil), ("visible", .bool false)] cw1.supply).1 →
      refsGe cw1.supply v = true) :=
  activation_sequence cw1 1 cd1 [("xs", .arr 0 .nil), ("visible", .bool false)]
    (by decide) (by decide)

/-! ## Claim C9: lifetime of the list-repeat template snapshot -/

/-- Document for the C9 scenario: a component with one `jsfor` container
holding one existing child. -/
def c9doc : DNode :=
  .elem 0 "#document" [] (.cons
    (.elem 1 "div" [("jscomponent", "L")] (.cons
      (.elem 2 "ul" [("jsfor", "xs")] (.cons
        (.elem 3 "li" [] (.cons (.textN "a") .nil)) .nil)) .nil)) .nil)

/-- Definition for the C9 scenario. -/
def c9d : ComponentDef := ⟨some [("xs", .arr 0 .nil)], false, false, false, none⟩

/-- C9 scenario, first activation: the template is a clone of the original
`li` child. -/
def c9w1 : DomWorld := (register ⟨c9doc, [], [], [], [], [], 10⟩ "L" c9d).1

/-- C9 scenario, after a patch that rebuilds the container's children. -/
def c9w2 : DomWorld :=
  (setStateRun c9w1 1 c9d [("xs", .arr 99 (.cons (.str "b") .nil))]).1

/-- C9 scenario, after explicit teardown and re-registration. -/
def c9w4 : DomWorld := (register (destroy c9w2 1).1 "L" c9d).1

/-- Counterexample to C9 as stated: after an explicit teardown of the
instance, re-activation captures the template snapshot again — the stored
template for container 2 changes from a clone of the original child
(text "a") to a clone of the rebuilt child (text "b"). -/
theorem for_template_recaptured_counterexample :
    alookup c9w1.forTemplates 2 =
      some (.elem 11 "li" [] (.cons (.textN "a") .nil)) ∧
    alookup c9w4.forTemplates 2 =
      some (.elem 15 "li" [] (.cons (.textN "b") .nil)) ∧
    alookup c9w4.forTemplates 2 ≠ alookup c9w1.forTemplates 2 := by decide

/-- Claim C9 (amended): a list-repeat template snapshot is never
re-captured while the instance it was captured with exists — re-activation
with an instance in place is a complete no-op, and no patch ever touches
the template store; only after an explicit teardown does re-activation
capture a fresh snapshot (at the concrete scenario, a clone of the
container's current first child rather than the original snapshot). -/
theorem for_template_capture_once (w : DomWorld) (compElId : Nat)
    (d : ComponentDef) (patch : List (String × JsVal))
    (hinst : (alookup w.instanceStore compElId).isSome = true) :
    initInstance w compElId d = (w, []) ∧
    (setStateRun w compElId d patch).1.forTemplates = w.forTemplates ∧
    alookup c9w4.forTemplates 2 =
      some (.elem 15 "li" [] (.cons (.textN "b") .nil)) := by
  refine ⟨?_, ?_, by decide⟩
  · unfold initInstance
    cases hs : d.state with
    | none => rfl
    | some declared => simp [hinst]
  · unfold setStateRun
    cases hs : alookup w.instanceStore compElId with
    | none => rfl
    | some inst =>
      by_cases he : (mergePatch inst.state patch).2.isEmpty <;> simp [he]

/-- Witness for C9 (amended) at the first-activation scenario world. -/
theorem for_template_capture_once_witness :
    initInstance c9w1 1 c9d = (c9w1, []) ∧
    (setStateRun c9w1 1 c9d [("xs", .bool true)]).1.forTemplates =
      c9w1.forTemplates ∧
    alookup c9w4.forTemplates 2 =
      some (.elem 15 "li" [] (.cons (.textN "b") .nil)) :=
  for_template_capture_once c9w1 1 c9d [("xs", .bool true)] (by decide)

/-! ## instanceStore lemmas for registration -/

theorem akeys_aset_sub {κ α : Type} [DecidableEq κ]
    (l : List (κ × α)) (k k' : κ) (v : α) (h : k' ∈ akeys (aset l k v)) :
    k' ∈ akeys l ∨ k' = k := by
  induction l with
  | nil => simpa [aset, akeys] using h
  | cons hd tl ih =>
    obtain ⟨k0, v0⟩ := hd
    by_cases hh : k0 = k
    · simp only [aset, if_pos hh, akeys, List.map_cons, List.mem_cons] at h ⊢
      tauto
    · simp only [aset, if_neg hh, akeys, List.map_cons, List.mem_cons] at h ⊢
      rcases h with h | h
      · tauto
      · rcases ih (by simpa [akeys] using h) with h2 | h2 <;> tauto

theorem akeys_aset_nodup {κ α : Type} [DecidableEq κ]
    (l : List (κ × α)) (k : κ) (v : α) (h : (akeys l).Nodup) :
    (akeys (aset l k v)).Nodup := by
  induction l with
  | nil => simp [aset, akeys]
  | cons hd tl ih =>
    obtain ⟨k0, v0⟩ := hd
    simp only [akeys, List.map_cons, List.nodup_cons] at h
    by_cases hh : k0 = k
    · simp only [aset, if_pos hh, akeys, List.map_cons, List.nodup_cons]
      exact ⟨h.1, h.2⟩
    · simp only [aset, if_neg hh, akeys, List.map_cons, List.nodup_cons]
      refine ⟨?_, ih h.2⟩
      intro hc
      rcases akeys_aset_sub tl k k0 v (by simpa [akeys] using hc) with h2 | h2
      · exact h.1 h2
      · exact hh h2

theorem initInstance_lookup_preserved (w : DomWorld) (c : Nat) (d : ComponentDef)
    (e : Nat) (inst : Instance) (h : alookup w.instanceStore e = some inst) :
    alookup (initInstance w c d).1.instanceStore e = some inst := by
  unfold initInstance
  cases hs : d.state with
  | none => exact h
  | some declared =>
    by_cases hc : (alookup w.instanceStore c).isSome = true
    · simp only [hc, if_pos rfl]
      exact h
    · have hne : e ≠ c := by
        intro heq
        rw [← heq] at hc
        rw [h] at hc
        exact hc rfl
      have hc2 : (alookup w.instanceStore c).isSome = false := by simpa using hc
      simp only [hc2, Bool.false_eq_true, if_false]
      rw [alookup_aset_ne w.instanceStore c e _ hne]
      exact h

theorem initInstance_isSome_preserved (w : DomWorld) (c : Nat) (d : ComponentDef)
    (e : Nat) (h : (alookup w.instanceStore e).isSome = true) :
    (alookup (initInstance w c d).1.instanceStore e).isSome = true := by
  cases hl : alookup w.instanceStore e with
  | none => rw [hl] at h; exact absurd h (by simp)
  | some inst =>
    rw [initInstance_lookup_preserved w c d e inst hl]
    rfl

theorem initInstance_self_isSome (w : DomWorld) (c : Nat) (d : ComponentDef)
    (s0 : List (String × JsVal)) (hs : d.state = some s0) :
    (alookup (initInstance w c d).1.instanceStore c).isSome = true := by
  unfold initInstance
  rw [hs]
  by_cases hc : (alookup w.instanceStore c).isSome = true
  · simp only [hc, if_pos rfl]
    exact hc
  · have hc2 : (alookup w.instanceStore c).isSome = false := by simpa using hc
    simp only [hc2, Bool.false_eq_true, if_false]
    rw [alookup_aset_self]
    rfl

theorem initInstance_nodup_preserved (w : DomWorld) (c : Nat) (d : ComponentDef)
    (h : (akeys w.instanceStore).Nodup) :
    (akeys (initInstance w c d).1.instanceStore).Nodup := by
  unfold initInstance
  cases hs : d.state with
  | none => exact h
  | some declared =>
    by_cases hc : (alookup w.instanceStore c).isSome = true
    · simp only [hc, if_pos rfl]
      exact h
    · have hc2 : (alookup w.instanceStore c).isSome = false := by simpa using hc
      simp only [hc2, Bool.false_eq_true, if_false]
      exact akeys_aset_nodup w.instanceStore c _ h

theorem registerLoop_lookup_preserved (d : ComponentDef) :
    ∀ (els : List Nat) (w : DomWorld) (e : Nat) (inst : Instance),
      alookup w.instanceStore e = some inst →
      alookup (registerLoop d els w).1.instanceStore e = some inst
  | [], w, e, inst, h => h
  | c :: els, w, e, inst, h => by
    simp only [registerLoop]
    exact registerLoop_lookup_preserved d els (initInstance w c d).1 e inst
      (initInstance_lookup_preserved w c d e inst h)

theorem registerLoop_isSome_preserved (d : ComponentDef) :
    ∀ (els : List Nat) (w : DomWorld) (e : Nat),
      (alookup w.instanceStore e).isSome = true →
      (alookup (registerLoop d els w).1.instanceStore e).isSome = true
  | [], _, _, h => h
  | c :: els, w, e, h => by
    simp only [registerLoop]
    exact registerLoop_isSome_preserved d els (initInstance w c d).1 e
      (initInstance_isSome_preserved w c d e h)

theorem registerLoop_activates (d : ComponentDef) (s0 : List (String × JsVal))
    (hs : d.state = some s0) :
    ∀ (els : List Nat) (w : DomWorld) (e : Nat), e ∈ els →
      (alookup (registerLoop d els w).1.instanceStore e).isSome = true
  | c :: els, w, e, hmem => by
    simp only [registerLoop]
    rcases List.mem_cons.mp hmem with rfl | h2
    · exact registerLoop_isSome_preserved d els (initInstance w e d).1 e
        (initInstance_self_isSome w e d s0 hs)
    · exact registerLoop_activates d s0 hs els (initInstance w c d).1 e h2

theorem registerLoop_nodup_preserved (d : ComponentDef) :
    ∀ (els : List Nat) (w : DomWorld),
      (akeys w.instanceStore).Nodup →
      (akeys (registerLoop d els w).1.instanceStore).Nodup
  | [], _, h => h
  | c :: els, w, h => by
    simp only [registerLoop]
    exact registerLoop_nodup_preserved d els (initInstance w c d).1
      (initInstance_nodup_preserved w c d h)

/-! ## Claim C10: registration activates matching elements -/

/-- Claim C10: registering a definition that declares initial state
activates, within the registration call itself, every element of the
document whose component marker equals the registered name: afterwards
each such element has an instance, every pre-existing instance is
preserved unchanged, and the store keeps at most one instance per element;
registering a definition without initial state activates nothing — the
instance store, document, binding stores and trace are untouched.  In both
cases the definition is stored in the registry. -/
theorem register_activation (w : DomWorld) (name : String) (d : ComponentDef)
    (hnd : (akeys w.instanceStore).Nodup) :
    (∀ s0, d.state = some s0 →
      (∀ elId, elId ∈ (querySelectorAll w.doc
          (.attrEq "jscomponent" name)).filterMap nodeIdOf →
        (alookup (register w name d).1.instanceStore elId).isSome = true) ∧
      (∀ elId inst, alookup w.instanceStore elId = some inst →
        alookup (register w name d).1.instanceStore elId = some inst) ∧
      (akeys (register w name d).1.instanceStore).Nodup) ∧
    (d.state = none →
      (register w name d).1.instanceStore = w.instanceStore ∧
      (register w name d).2 = [] ∧
      (register w name d).1.doc = w.doc ∧
      (register w name d).1.forTemplates = w.forTemplates ∧
      (register w name d).1.ifBindingsStore = w.ifBindingsStore) ∧
    (register w name d).1.componentRegistry = aset w.componentRegistry name d := by
  refine ⟨?_, ?_, ?_⟩
  · intro s0 hs
    refine ⟨?_, ?_, ?_⟩
    · intro elId hmem
      unfold register
      rw [hs]
      exact registerLoop_activates d s0 hs _ _ elId (by simpa using hmem)
    · intro elId inst h
      unfold register
      rw [hs]
      exact registerLoop_lookup_preserved d _ _ elId inst h
    · unfold register
      rw [hs]
      exact registerLoop_nodup_preserved d _ _ hnd
  · intro hs
    unfold register
    rw [hs]
    exact ⟨rfl, rfl, rfl, rfl, rfl⟩
  · unfold register
    cases hs : d.state with
    | none => rfl
    | some s0 =>
      have : ∀ (els : List Nat) (w2 : DomWorld),
          (registerLoop d els w2).1.componentRegistry = w2.componentRegistry := by
        intro els
        induction els with
        | nil => intro w2; rfl
        | cons c els ih =>
          intro w2
          simp only [registerLoop]
          rw [ih]
          unfold initInstance
          cases hs2 : d.state with
          | none => rfl
          | some declared =>
            by_cases hc : (alookup w2.instanceStore c).isSome = true
            · simp [hc]
            · have hc2 : (alookup w2.instanceStore c).isSome = false := by simpa using hc
              simp [hc2]
      rw [this]

/-- Witness for C10 at the concrete world of the C1 scenario. -/
theorem register_activation_witness :
    (∀ s0, cd1.state = some s0 →
      (∀ elId, elId ∈ (querySelectorAll cw1.doc
          (.attrEq "jscomponent" "C")).filterMap nodeIdOf →
        (alookup (register cw1 "C" cd1).1.instanceStore elId).isSome = true) ∧
      (∀ elId inst, alookup cw1.instanceStore elId = some inst →
        alookup (register cw1 "C" cd1).1.instanceStore elId = some inst) ∧
      (akeys (register cw1 "C" cd1).1.instanceStore).Nodup) ∧
    (cd1.state = none →
      (register cw1 "C" cd1).1.instanceStore = cw1.instanceStore ∧
      (register cw1 "C" cd1).2 = [] ∧
      (register cw1 "C" cd1).1.doc = cw1.doc ∧
      (register cw1 "C" cd1).1.forTemplates = cw1.forTemplates ∧
      (register cw1 "C" cd1).1.ifBindingsStore = cw1.ifBindingsStore) ∧
    (register cw1 "C" cd1).1.componentRegistry =
      aset cw1.componentRegistry "C" cd1 :=
  register_activation cw1 "C" cd1 (by decide)

/-! ## Claim C8: the conditional-binding round trip -/

/-- Document for the C8 scenario: a component owning one concrete
(non-template) conditional element with arbitrary key and text. -/
def c8doc (key s : String) : DNode :=
  .elem 0 "#document" [] (.cons
    (.elem 1 "div" [("jscomponent", "C")] (.cons
      (.elem 2 "p" [("jsif", key)] (.cons (.textN s) .nil)) .nil)) .nil)

/-- Definition for the C8 scenario. -/
def c8d (key : String) : ComponentDef :=
  ⟨some [(key, .bool false)], false, false, false, none⟩

/-- Starting world for the C8 scenario. -/
def c8w0 (key s : String) : DomWorld := ⟨c8doc key s, [], [], [], [], [], 10⟩

/-- Claim C8: for a concrete conditional element present in the tree at
activation, hydration sets the bound key to `true` and inserts a stable
position marker immediately before the element; patching the key to
`false` removes the element and leaves the marker in place; patching it
back to `true` reinserts the exact same element (same identity, same
content) immediately before its marker. -/
theorem conditional_binding_round_trip (key s : String)
    (hneg : (key.data.head? == some '!') = false) :
    alookup (initInstance (c8w0 key s) 1 (c8d key)).1.instanceStore 1 =
      some ⟨[(key, .bool true)], none⟩ ∧
    (initInstance (c8w0 key s) 1 (c8d key)).1.doc =
      .elem 0 "#document" [] (.cons (.elem 1 "div" [("jscomponent", "C")]
        (.cons (.commentN 10 "jsif")
          (.cons (.elem 2 "p" [("jsif", key)] (.cons (.textN s) .nil)) .nil)))
        .nil) ∧
    (setStateRun (initInstance (c8w0 key s) 1 (c8d key)).1 1 (c8d key)
        [(key, .bool false)]).1.doc =
      .elem 0 "#document" [] (.cons (.elem 1 "div" [("jscomponent", "C")]
        (.cons (.commentN 10 "jsif") .nil)) .nil) ∧
    (setStateRun (setStateRun (initInstance (c8w0 key s) 1 (c8d key)).1 1
        (c8d key) [(key, .bool false)]).1 1 (c8d key)
        [(key, .bool true)]).1.doc =
      .elem 0 "#document" [] (.cons (.elem 1 "div" [("jscomponent", "C")]
        (.cons (.elem 2 "p" [("jsif", key)] (.cons (.textN s) .nil))
          (.cons (.commentN 10 "jsif") .nil))) .nil) := by
  simp [c8w0, c8doc, c8d, initInstance, deepCloneState, deepClone,
    initForBindings, hydrateForBindings, hydrateBindings, hydrateBindingsLoop,
    hydrateKeyLoop, initIfBindings, initIfLoop, updateBindings,
    updateBindingsLoop, updateElsLoop, querySelectorAll, collectMatchesN,
    collectMatchesF, selMatch, getAttrN, alookup, aset, akeys, lookupD,
    isArray, typeofVal, belongsToComponent, ancN, ancF, belongsWalk, nodeIdOf,
    tagOf, closestAttr, closestWalk, findByIdN, findByIdF, insertBeforeIdN,
    insertBeforeIdF, removeByIdN, removeByIdF, elemChildren, elemChildrenF,
    textContentN, textContentF, cloneNodeN, cloneNodeF, mergePatch, jsEq,
    truthy, setStateRun, updateIfBindings, updateIfLoop, updateForBindings,
    updateForKeyLoop, updateForContainers, updateForItems, initForLoop,
    hydrateForLoop, hydrateForItems, hydrateForItemObj, querySelector,
    fappend, jsToString, jsToStringList, mapChildrenByIdN, mapChildrenByIdF,
    clearChildrenById, appendChildById, getAttrNT, fieldsOfList, fieldsLookup,
    hneg]

/-- Witness for C8 at the spec's own concrete markup
(`<p jsif="visible">text</p>`). -/
theorem conditional_binding_round_trip_witness :
    alookup (initInstance (c8w0 "visible" "text") 1 (c8d "visible")).1.instanceStore 1 =
      some ⟨[("visible", .bool true)], none⟩ ∧
    (initInstance (c8w0 "visible" "text") 1 (c8d "visible")).1.doc =
      .elem 0 "#document" [] (.cons (.elem 1 "div" [("jscomponent", "C")]
        (.cons (.commentN 10 "jsif")
          (.cons (.elem 2 "p" [("jsif", "visible")] (.cons (.textN "text") .nil))
            .nil))) .nil) ∧
    (setStateRun (initInstance (c8w0 "visible" "text") 1 (c8d "visible")).1 1
        (c8d "visible") [("visible", .bool false)]).1.doc =
      .elem 0 "#document" [] (.cons (.elem 1 "div" [("jscomponent", "C")]
        (.cons (.commentN 10 "jsif") .nil)) .nil) ∧
    (setStateRun (setStateRun (initInstance (c8w0 "visible" "text") 1
        (c8d "visible")).1 1 (c8d "visible") [("visible", .bool false)]).1 1
        (c8d "visible") [("visible", .bool true)]).1.doc =
      .elem 0 "#document" [] (.cons (.elem 1 "div" [("jscomponent", "C")]
        (.cons (.elem 2 "p" [("jsif", "visible")] (.cons (.textN "text") .nil))
          (.cons (.commentN 10 "jsif") .nil))) .nil) :=
  conditional_binding_round_trip "visible" "text" (by decide)

end Ziw
